import Mathlib

/-!
Verification of the WhatsApp-message data pipeline
(`src/modules/data_cleaning.py`, `src/modules/data_filtering.py`,
`src/modules/data_processing.py`, `src/utils/functions.py`).

The pandas DataFrames are shallowly embedded as a list of column names
together with a list of rows; a row is an association list from column
name to cell value.  A cell value is text, a number (pandas float values
are modelled as exact rationals - the pipeline only ever parses plain
decimal literals and compares them with zero), a boolean, or the missing
value `na` (modelling both `pd.NA` and `NaN`, which the pipeline never
distinguishes).  Fallible operations return `Except PipeError`.
-/

namespace Wsp

/-- A cell of a DataFrame: text, numeric (pandas float, modelled as an exact
rational since the pipeline only parses plain decimals and compares them to
zero), boolean, or missing (`pd.NA` / `NaN`). -/
inductive Value where
  | str (s : String)
  | num (q : Rat)
  | bool (b : Bool)
  | na
deriving DecidableEq, Repr

/-- A DataFrame row: an association list from column name to cell value.
In pandas every row carries every column of its frame; the embedding keeps
the cells in column order. -/
abbrev Row := List (String × Value)

/-- A pandas DataFrame: ordered column names and ordered rows. -/
structure DataFrame where
  columns : List String
  rows : List Row
deriving DecidableEq, Repr

deriving instance DecidableEq for Except

namespace Value

/-- Python `str(...)` coercion as used by the pipeline.  The pipeline only
ever coerces text cells (`INDICATIVO` / `CONTACTO` hold raw spreadsheet
text); the non-text branches are placeholders for Python's rendering of
bool/NaN and are never exercised by the claims. -/
def pyStr : Value → String
  | .str s => s
  | .bool true => "True"
  | .bool false => "False"
  | .num q => toString q
  | .na => "nan"

/-- Pandas elementwise `==`: missing values compare unequal to everything
(`NaN == x` is `False`), text compares by string equality, numerics and
booleans compare numerically (Python `True == 1`). -/
def pyEq : Value → Value → Bool
  | .str s, .str t => s = t
  | .num p, .num q => p = q
  | .bool x, .bool y => x = y
  | .num p, .bool y => p = (if y then 1 else 0)
  | .bool x, .num q => (if x then (1 : Rat) else 0) = q
  | _, _ => false

/-- Is this cell a text cell? -/
def isStr : Value → Bool
  | .str _ => true
  | _ => false

end Value

namespace Row

/-- Cell of a row; pandas rows always carry every column, so a lookup miss
(only possible for ill-formed embedded rows) yields the missing value. -/
def cell (r : Row) (c : String) : Value :=
  (r.lookup c).getD .na

/-- Column assignment at row level: replace the value of an existing field
in place, or append a new field at the end (pandas `df[c] = ...`). -/
def setCell : Row → String → Value → Row
  | [], c, v => [(c, v)]
  | (c', v') :: r, c, v =>
      if c' = c then (c', v) :: r else (c', v') :: setCell r c v

/-- Drop the named fields from a row (pandas `drop(columns=...)`). -/
def dropCells (r : Row) (cs : List String) : Row :=
  r.filter (fun p => decide (p.1 ∉ cs))

/-- Apply a function to the value of every field with the given name
(column-level transformation of one column). -/
def mapCell : Row → String → (Value → Value) → Row
  | [], _, _ => []
  | (c', v) :: r, c, f =>
      (if c' = c then (c', f v) else (c', v)) :: mapCell r c f

/-- Rename fields according to an association list (pandas `rename`). -/
def renameCells (r : Row) (m : List (String × String)) : Row :=
  r.map (fun p => (((m.lookup p.1).getD p.1), p.2))

end Row

namespace DataFrame

/-- Pandas `df.empty`: true when either axis has length zero. -/
def empty (df : DataFrame) : Bool :=
  df.rows.isEmpty || df.columns.isEmpty

/-- Pandas `df[cols]`: project every row onto the given columns, in the
given order (the caller has checked the columns are present). -/
def project (df : DataFrame) (cols : List String) : DataFrame :=
  ⟨cols, df.rows.map (fun r => cols.map (fun c => (c, r.cell c)))⟩

/-- Pandas `df[c] = f(rows)`: assign a column computed row-wise, replacing
it in place when present and appending it otherwise. -/
def setCol (df : DataFrame) (c : String) (f : Row → Value) : DataFrame :=
  ⟨if c ∈ df.columns then df.columns else df.columns ++ [c],
   df.rows.map (fun r => r.setCell c (f r))⟩

/-- Transform one existing column cell-wise. -/
def mapCol (df : DataFrame) (c : String) (f : Value → Value) : DataFrame :=
  ⟨df.columns, df.rows.map (fun r => r.mapCell c f)⟩

/-- Pandas `drop(columns=cs)`. -/
def dropCols (df : DataFrame) (cs : List String) : DataFrame :=
  ⟨df.columns.filter (fun c => decide (c ∉ cs)),
   df.rows.map (fun r => r.dropCells cs)⟩

/-- Pandas `rename(columns=m)`. -/
def renameCols (df : DataFrame) (m : List (String × String)) : DataFrame :=
  ⟨df.columns.map (fun c => (m.lookup c).getD c),
   df.rows.map (fun r => r.renameCells m)⟩

end DataFrame

/-- Error taxonomy of the pipeline, one constructor per distinguishable
Python exception raised by the embedded functions. -/
inductive PipeError where
  /-- `ValueError("Input DataFrame is empty")` in `clean_data`. -/
  | emptyInput
  /-- `KeyError(f"Missing required columns: {missing}")`. -/
  | missingColumns (cols : List String)
  /-- `KeyError("Missing required column: c")` (single-column checks). -/
  | missingColumn (col : String)
  /-- `ValueError("Error processing VALOR column: ...")`. -/
  | invalidNumeric
  /-- `ValueError("Error processing CORTE column: ...")`. -/
  | invalidBoolean
  /-- `ValueError("user_type must be either seller or reseller")`. -/
  | invalidMode
  /-- `ValueError("Error filtering data: ...")` (wrapped `KeyError`). -/
  | filterError
  /-- a `KeyError` on row/column access wrapped into a `ValueError`. -/
  | keyError
  /-- "no data" errors of the orchestration (`get_info_of_customers`). -/
  | noData
deriving DecidableEq, Repr

/-! ### `src/utils/functions.py` : `add_phone_column` -/

/-- `add_phone_column` (src/utils/functions.py): checks that `INDICATIVO`
and `CONTACTO` are present (raising `KeyError` listing the absent ones
otherwise), assigns `TELEFONO = str(INDICATIVO) + " " + str(CONTACTO)`,
and drops the two source columns. -/
def add_phone_column (df : DataFrame) : Except PipeError DataFrame :=
  let missing := ["INDICATIVO", "CONTACTO"].filter (fun c => decide (c ∉ df.columns))
  if ¬ missing.isEmpty then .error (.missingColumns missing)
  else
    .ok ((df.setCol "TELEFONO"
      (fun r => .str (Value.pyStr (r.cell "INDICATIVO") ++ " " ++
                      Value.pyStr (r.cell "CONTACTO")))).dropCols
        ["INDICATIVO", "CONTACTO"])

/-! ### `src/config/settings.py` -/

/-- `DESIRED_COLUMNS` from `src/config/settings.py`. -/
def DESIRED_COLUMNS : List String :=
  ["WSP", "PLAT.", "CORTE", "CLIENTE", "PANTALLA", "INDICATIVO", "CONTACTO", "VALOR", "DIAS"]

/-! ### `src/modules/data_cleaning.py` : `clean_data` -/

/-- Series `.replace('', pd.NA)`: an empty text cell becomes missing. -/
def emptyToNA (v : Value) : Value :=
  if v = .str "" then .na else v

/-- Remove every `'$'` character (`.str.replace('$', '')` with the modern
pandas default `regex=False` removes all occurrences of the literal). -/
def stripDollars (s : String) : String :=
  ⟨s.data.filter (fun c => c ≠ '$')⟩

/-- Value of a digit list read in base 10. -/
def digitsToNat (l : List Char) : Nat :=
  l.foldl (fun n c => 10 * n + (c.toNat - '0'.toNat)) 0

/-- The plain decimal fragment of Python `float(...)`: optional sign,
digits, optional decimal point (`"10"`, `"-3."`, `".5"`, `"10.25"`).
The exotic inputs `float` also accepts (exponents, underscores, `inf`,
`nan`, surrounding whitespace) are outside the fragment the currency
column exercises and are not modelled. -/
def parseDecimal (s : String) : Option Rat :=
  let p : Bool × List Char :=
    match s.data with
    | '-' :: rest => (true, rest)
    | '+' :: rest => (false, rest)
    | cs => (false, cs)
  let intPart := p.2.takeWhile Char.isDigit
  let rest := p.2.dropWhile Char.isDigit
  let mk : Nat → Nat → Option Rat := fun mant scale =>
    some (mkRat (if p.1 then -(mant : Int) else (mant : Int)) (10 ^ scale))
  match rest with
  | [] =>
      if intPart.isEmpty then none
      else mk (digitsToNat intPart) 0
  | '.' :: frac =>
      if frac.all Char.isDigit ∧ ¬ (intPart.isEmpty ∧ frac.isEmpty) then
        mk (digitsToNat (intPart ++ frac)) frac.length
      else none
  | _ => none

/-- The `VALOR` series after `.replace('', pd.NA)` and
`.str.replace('$', '')`: empty text becomes missing, other text loses its
`'$'` characters; the `.str` accessor maps non-text cells to `NaN`. -/
def valorPre (v : Value) : Value :=
  match emptyToNA v with
  | .str s => .str (stripDollars s)
  | _ => .na

/-- Does `.astype(float)` accept this cell?  Only unparseable text fails;
missing values convert to `NaN`. -/
def valorOk (v : Value) : Bool :=
  match v with
  | .str s => (parseDecimal s).isSome
  | _ => true

/-- The cell produced by `.astype(float)` when the whole column converts
(text parses to its numeric value, missing stays missing). -/
def valorVal : Value → Value
  | .str s => match parseDecimal s with
              | some q => .num q
              | none => .na
  | v => v

/-- Processing of the `VALOR` column inside `clean_data`: skipped when the
column is absent; otherwise `.replace('', pd.NA)`, `.str.replace('$','')`
and `.astype(float)`, which raises (wrapped into the InvalidNumeric
`ValueError`) exactly when some cell's text fails to parse.  `astype` is
all-or-nothing: either the whole column converts or the error is raised. -/
def processVALOR (df : DataFrame) : Except PipeError DataFrame :=
  if "VALOR" ∈ df.columns then
    if df.rows.all (fun r => valorOk (valorPre (r.cell "VALOR"))) then
      .ok (df.mapCol "VALOR" (fun v => valorVal (valorPre v)))
    else .error .invalidNumeric
  else .ok df

/-- One `CORTE` cell after `.replace('', pd.NA)`,
`.map({'TRUE': True, 'FALSE': False, pd.NA: False})` and `.astype(bool)`.
`Series.map` sends every value that is not a key of the dict to `NaN`,
and `astype(bool)` turns `NaN` into `True` (Python `bool(nan)` is `True`),
so an unrecognized literal silently becomes `True`; no exception is ever
raised, leaving the InvalidBoolean handler dead. -/
def corteCell (v : Value) : Value :=
  match emptyToNA v with
  | .na => .bool false
  | .str s =>
      if s = "TRUE" then .bool true
      else if s = "FALSE" then .bool false
      else .bool true
  | _ => .bool true

/-- Processing of the `CORTE` column inside `clean_data`: skipped when the
column is absent; otherwise the (total, never-raising) cell map above. -/
def processCORTE (df : DataFrame) : DataFrame :=
  if "CORTE" ∈ df.columns then df.mapCol "CORTE" corteCell else df

/-- `df_cleaned['VALOR'] > 0` for one cell: only a positive number passes
(`NaN > 0` is `False`). -/
def gtZeroCell : Value → Bool
  | .num q => 0 < q
  | _ => false

/-- `~df_cleaned['CORTE']` for one cell of the (boolean) cut column. -/
def notCutCell : Value → Bool
  | .bool b => ¬ b
  | _ => false

/-- The row filter `(df['VALOR'] > 0) & (~df['CORTE'])`. -/
def maskRow (r : Row) : Bool :=
  gtZeroCell (r.cell "VALOR") && notCutCell (r.cell "CORTE")

/-- The final filtering step of `clean_data`:
`df_cleaned[mask].drop(columns=['VALOR'])`.  Accessing a missing `VALOR`
or `CORTE` column raises a `KeyError` that the surrounding handler wraps
into the "Error filtering data" `ValueError`. -/
def filterStage (df : DataFrame) : Except PipeError DataFrame :=
  if "VALOR" ∈ df.columns ∧ "CORTE" ∈ df.columns then
    .ok (DataFrame.dropCols ⟨df.columns, df.rows.filter maskRow⟩ ["VALOR"])
  else .error .filterError

/-- Everything `clean_data` (src/modules/data_cleaning.py) does before the
final row filter: the emptiness check, the required-columns check, the
projection onto the desired columns, `add_phone_column`, the renames
`WSP → VENDEDOR` / `PLAT. → PLATAFORMA`, and the `VALOR` and `CORTE`
column processing. -/
def cleanPrefilter (df : DataFrame) (desired : List String) :
    Except PipeError DataFrame :=
  if df.empty then .error .emptyInput
  else
    let missing := desired.filter (fun c => decide (c ∉ df.columns))
    if ¬ missing.isEmpty then .error (.missingColumns missing)
    else do
      let dfp ← add_phone_column (df.project desired)
      let dfr := dfp.renameCols [("WSP", "VENDEDOR"), ("PLAT.", "PLATAFORMA")]
      let dfv ← processVALOR dfr
      pure (processCORTE dfv)

/-- `clean_data` (src/modules/data_cleaning.py): the pre-filter stages
followed by the row filter and the drop of `VALOR`. -/
def clean_data (df : DataFrame) (desired : List String) :
    Except PipeError DataFrame :=
  cleanPrefilter df desired >>= filterStage

/-! ### `src/modules/data_filtering.py` -/

/-- `filter_data_by_day`: rows whose `DIAS` cell equals the given day text
(pandas elementwise `==`, no normalization); `KeyError` when the column is
absent. -/
def filter_data_by_day (df : DataFrame) (day : String) :
    Except PipeError DataFrame :=
  if "DIAS" ∉ df.columns then .error (.missingColumn "DIAS")
  else .ok ⟨df.columns,
            df.rows.filter (fun r => Value.pyEq (r.cell "DIAS") (.str day))⟩

/-- Python dict insertion: overwrite the value in place when the key
exists, append the pair otherwise. -/
def dictInsert (m : List (Value × DataFrame)) (k : Value) (v : DataFrame) :
    List (Value × DataFrame) :=
  if m.any (fun p => p.1 = k) then
    m.map (fun p => if p.1 = k then (p.1, v) else p)
  else m ++ [(k, v)]

/-- `filter_data_by_user_type`: validates the mode and the match columns,
then builds `{row['SIGLAS']: df_data[df_data[colData] == row[colUser]]}`
over the reference rows.  In pandas every reference row carries every
column of its frame, so the `row['SIGLAS']` access can only fail when the
`SIGLAS` column itself is absent (possible in `reseller` mode), a
`KeyError` wrapped into a `ValueError` on the first row processed. -/
def filter_data_by_user_type (df_data df_user : DataFrame)
    (user_type : String) : Except PipeError (List (Value × DataFrame)) :=
  if ¬ (user_type = "seller" ∨ user_type = "reseller") then
    .error .invalidMode
  else
    let colData := if user_type = "seller" then "VENDEDOR" else "TELEFONO"
    let colUser := if user_type = "seller" then "SIGLAS" else "TELEFONO"
    if colData ∉ df_data.columns then
      .error (.missingColumn colData)
    else if colUser ∉ df_user.columns then
      .error (.missingColumn colUser)
    else if ¬ df_user.rows.isEmpty ∧ "SIGLAS" ∉ df_user.columns then
      .error .keyError
    else
      .ok (df_user.rows.foldl
        (fun m seller =>
          dictInsert m (seller.cell "SIGLAS")
            ⟨df_data.columns,
             df_data.rows.filter
               (fun r => Value.pyEq (r.cell colData) (seller.cell colUser))⟩)
        [])

/-! ### `src/modules/data_processing.py` -/

/-- Lexicographic comparison of character lists by code point — Python's
string comparison, used by `groupby(sort=True)` on string keys. -/
def charsLe : List Char → List Char → Bool
  | [], _ => true
  | _ :: _, [] => false
  | a :: as, b :: bs =>
      if a.toNat = b.toNat then charsLe as bs else a.toNat < b.toNat

/-- Python string `<=` (code-point lexicographic). -/
def strLe (s t : String) : Bool :=
  charsLe s.data t.data

/-- Comparison of cell values as `groupby(sort=True)` orders its keys.
The pipeline's grouping keys are always text; comparing values of
different kinds would raise a `TypeError` in Python and is given an
arbitrary total order (by constructor rank) here only to keep the sort
total. -/
def valueLe : Value → Value → Bool
  | .str s, .str t => strLe s t
  | .num p, .num q => p ≤ q
  | .bool x, .bool y => !x || y
  | .na, .na => true
  | a, b =>
      (match a with | .bool _ => 0 | .num _ => 1 | .str _ => 2 | .na => 3) ≤
      (match b with | .bool _ => 0 | .num _ => 1 | .str _ => 2 | .na => 3)

/-- Lexicographic comparison of grouping-key tuples. -/
def keyLe : List Value → List Value → Bool
  | [], _ => true
  | _ :: _, [] => false
  | a :: as, b :: bs => if a = b then keyLe as bs else valueLe a b

/-- First occurrences of a list, relative to an already-seen list:
`firstSeenAux seen l` keeps the elements of `l` that are not in `seen`
and not yet kept, in order of first appearance. -/
def firstSeenAux [DecidableEq α] (seen : List α) : List α → List α
  | [] => []
  | x :: xs =>
      if x ∈ seen then firstSeenAux (x :: seen) xs
      else x :: firstSeenAux (x :: seen) xs

/-- Distinct elements of a list in order of first appearance (the order
`Series.unique()` and the groupby group-construction use). -/
def firstSeen [DecidableEq α] (l : List α) : List α :=
  firstSeenAux [] l

/-- Add a row to the group of its key: extend the existing group, or open
a new group at the end when the key is new. -/
def insertGroup (acc : List (List Value × List Row)) (k : List Value)
    (r : Row) : List (List Value × List Row) :=
  if acc.any (fun p => p.1 = k) then
    acc.map (fun p => if p.1 = k then (p.1, p.2 ++ [r]) else p)
  else acc ++ [(k, [r])]

/-- Group rows by key: keys in order of first appearance, each paired with
its rows in their original order (how pandas forms groupby groups before
sorting the keys). -/
def groupPairs (key : Row → List Value) (rows : List Row) :
    List (List Value × List Row) :=
  rows.foldl (fun acc r => insertGroup acc (key r) r) []

/-- Insert into a sorted list (stable insertion sort, used to model the
key-sorted output of `groupby(sort=True)`). -/
def insSorted (le : α → α → Bool) (x : α) : List α → List α
  | [] => [x]
  | y :: ys => if le x y then x :: y :: ys else y :: insSorted le x ys

/-- Stable insertion sort. -/
def insSort (le : α → α → Bool) : List α → List α
  | [] => []
  | x :: xs => insSorted le x (insSort le xs)

/-- Groups sorted by key, ascending — `groupby`'s default `sort=True`. -/
def sortGroups (gs : List (List Value × List Row)) :
    List (List Value × List Row) :=
  insSort (fun x y => keyLe x.1 y.1) gs

/-- The grouping key of a row on the given columns. -/
def rowKey (cols : List String) (r : Row) : List Value :=
  cols.map (fun c => r.cell c)

/-- The four-column key of the first `groupby` of `process_data`. -/
def key4cols : List String := ["VENDEDOR", "CLIENTE", "PLATAFORMA", "TELEFONO"]

/-- The three-column key of the second `groupby` of `process_data`. -/
def key3cols : List String := ["VENDEDOR", "CLIENTE", "TELEFONO"]

/-- `' sep '.join` over cells, as `.str.join` / `str.join` behave on a
pandas object column: a join of text values; any non-text participant
makes the result missing (`.str.join` yields `NaN` there — the string
pipeline never feeds it non-text). -/
def joinStrVals (sep : String) (vs : List Value) : Value :=
  if vs.all Value.isStr then .str (String.intercalate sep (vs.map Value.pyStr))
  else .na

/-- Pandas `+` chains over columns and string literals: string
concatenation, with a missing participant making the result missing. -/
def concatVals (vs : List Value) : Value :=
  if vs.all Value.isStr then .str (String.join (vs.map Value.pyStr))
  else .na

/-- One row of `df_grouped` in `process_data`: the four key columns of the
group followed by the group's distinct `PANTALLA` values in first-seen
order joined with `" & "` (`.unique()` then `.str.join(' & ')`), as laid
out by `reset_index()`. -/
def aggRow1 (kg : List Value × List Row) : Row :=
  key4cols.zip kg.1 ++
    [("PANTALLA", joinStrVals " & " (firstSeen (kg.2.map (fun r => r.cell "PANTALLA"))))]

/-- The `SERVICIO` cell: `'*' + PLATAFORMA + '*: _' + PANTALLA + '_'`. -/
def servCell (r : Row) : Value :=
  concatVals [.str "*", r.cell "PLATAFORMA", .str "*: _", r.cell "PANTALLA", .str "_"]

/-- One row of the final frame of `process_data`: the three key columns of
the group followed by the group's `SERVICIO` values joined with `" ▪️ "`
(`.apply(' ▪️ '.join)`), as laid out by `reset_index()`. -/
def aggRow2 (kg : List Value × List Row) : Row :=
  key3cols.zip kg.1 ++
    [("SERVICIO", joinStrVals " ▪️ " (kg.2.map (fun r => r.cell "SERVICIO")))]

/-- `process_data` (src/modules/data_processing.py): checks the required
columns, groups by (VENDEDOR, CLIENTE, PLATAFORMA, TELEFONO) joining the
distinct `PANTALLA` values with `" & "` (sorted group keys, `sort=True`),
builds the `SERVICIO` label column, and regroups by (VENDEDOR, CLIENTE,
TELEFONO) joining the labels with `" ▪️ "` (again sorted keys). -/
def process_data (df : DataFrame) : Except PipeError DataFrame :=
  let required := ["VENDEDOR", "CLIENTE", "PLATAFORMA", "TELEFONO", "PANTALLA"]
  let missing := required.filter (fun c => decide (c ∉ df.columns))
  if ¬ missing.isEmpty then .error (.missingColumns missing)
  else
    let dfg : DataFrame :=
      ⟨key4cols ++ ["PANTALLA"],
       (sortGroups (groupPairs (rowKey key4cols) df.rows)).map aggRow1⟩
    let dfg2 := dfg.setCol "SERVICIO" servCell
    .ok ⟨key3cols ++ ["SERVICIO"],
         (sortGroups (groupPairs (rowKey key3cols) dfg2.rows)).map aggRow2⟩

/-- Python `str.split()` with no separator: split on whitespace runs,
discarding empty tokens. -/
def pyTokens : List Char → List Char → List String
  | cur, [] => if cur.isEmpty then [] else [⟨cur.reverse⟩]
  | cur, c :: rest =>
      if c.isWhitespace then
        if cur.isEmpty then pyTokens [] rest
        else ⟨cur.reverse⟩ :: pyTokens [] rest
      else pyTokens (c :: cur) rest

/-- `.str.split().str[0]`: the first whitespace-delimited token of a text
cell, missing when there is none (empty/blank text) or when the cell is
not text. -/
def firstToken : Value → Value
  | .str s =>
      match pyTokens [] s.data with
      | [] => .na
      | t :: _ => .str t
  | _ => .na

/-- `add_message_column` (src/modules/data_processing.py): requires the
`CLIENTE` column (raising the single-column `KeyError` otherwise), adds
`NOMBRE` as the first name token, then adds `MENSAJE` from the greeting
template; the `SERVICIO` access inside the guarded block raises a
`KeyError` (wrapped into a `ValueError`) when that column is absent.  Row
content never raises: a missing `NOMBRE` just propagates into a missing
`MENSAJE`. -/
def add_message_column (df : DataFrame) (day_str : String) :
    Except PipeError DataFrame :=
  if "CLIENTE" ∉ df.columns then .error (.missingColumn "CLIENTE")
  else
    let df1 := df.setCol "NOMBRE" (fun r => firstToken (r.cell "CLIENTE"))
    if "SERVICIO" ∉ df1.columns then .error .keyError
    else
      .ok (df1.setCol "MENSAJE" (fun r =>
        concatVals [.str "Hola, ", r.cell "NOMBRE", .str ". Buen día. ",
                    .str day_str, .str " otro mes de ", r.cell "SERVICIO",
                    .str ". ¿Desea continuar?"]))

/-- `process_data_by_type`: per user, day-filter then aggregate then add
the message column, keeping the per-user mapping. -/
def process_data_by_type (m : List (Value × DataFrame))
    (day_indicator : String) (message_day : String) :
    Except PipeError (List (Value × DataFrame)) :=
  m.mapM (fun p => do
    let f ← filter_data_by_day p.2 day_indicator
    let pr ← process_data f
    let msg ← add_message_column pr message_day
    pure (p.1, msg))

/-- `pd.concat(dfs, ignore_index=True)`: columns are the union in order of
first appearance, rows are reindexed onto that union with missing cells
filled with `NaN`. -/
def concatDFs (dfs : List DataFrame) : DataFrame :=
  let cols := firstSeen (dfs.flatMap (fun d => d.columns))
  ⟨cols, dfs.flatMap (fun d => d.rows.map (fun r => cols.map (fun c => (c, r.cell c))))⟩

/-- The pipeline entry point `get_info_of_customers`
(src/modules/data_processing.py), modelled from the point where the
worksheet data has been fetched: `df` is the customer frame built from the
sheet rows and `df_sellers` the seller reference frame.  Checks the frame
is non-empty, cleans it with `DESIRED_COLUMNS`, partitions by seller,
processes each partition (day filter, aggregation, message column), and
concatenates the per-seller tables, failing when the result is empty
(`pd.concat` of no tables also raises). -/
def get_info_core (df df_sellers : DataFrame)
    (index_day : String) (message_day : String) :
    Except PipeError DataFrame := do
  if df.empty then throw .noData
  let cleaned ← clean_data df DESIRED_COLUMNS
  let byCust ← filter_data_by_user_type cleaned df_sellers "seller"
  let processed ← process_data_by_type byCust index_day message_day
  let result := concatDFs (processed.map (fun p => p.2))
  if result.rows.isEmpty then throw .noData
  pure result

/-! ### Basic lemmas about rows and the grouping helpers -/

namespace Row

theorem lookup_setCell_self (r : Row) (c : String) (v : Value) :
    (r.setCell c v).lookup c = some v := by
  induction r with
  | nil => simp [setCell, List.lookup]
  | cons p r ih =>
      by_cases h : p.1 = c
      · have hb : (c == p.1) = true := by simp [h]
        simp [setCell, h, List.lookup, hb]
      · have hb : (c == p.1) = false := by simp [Ne.symm h]
        simp [setCell, h, List.lookup, hb, ih]

theorem lookup_setCell_ne (r : Row) (c c' : String) (v : Value)
    (h : c' ≠ c) : (r.setCell c v).lookup c' = r.lookup c' := by
  induction r with
  | nil =>
      have hb : (c' == c) = false := by simp [h]
      simp [setCell, List.lookup, hb]
  | cons p r ih =>
      by_cases hp : p.1 = c
      · subst hp
        have hb : (c' == p.1) = false := by simp [h]
        simp [setCell, List.lookup, hb]
      · by_cases hp' : (c' == p.1) = true
        · simp [setCell, hp, List.lookup, hp']
        · simp only [Bool.not_eq_true] at hp'
          simp [setCell, hp, List.lookup, hp', ih]

theorem fst_setCell (r : Row) (c : String) (v : Value) :
    (r.setCell c v).map Prod.fst =
      if c ∈ r.map Prod.fst then r.map Prod.fst else r.map Prod.fst ++ [c] := by
  induction r with
  | nil => simp [setCell]
  | cons p r ih =>
      by_cases h : p.1 = c
      · simp [setCell, h]
      · simp only [setCell, h, if_neg, not_false_iff, List.map_cons, ih]
        by_cases hc : c ∈ r.map Prod.fst
        · simp [hc, List.mem_cons, h]
        · simp [hc, List.mem_cons, h, Ne.symm h]

theorem lookup_dropCells_mem (r : Row) (cs : List String) (c : String)
    (h : c ∈ cs) : (r.dropCells cs).lookup c = none := by
  induction r with
  | nil => simp [dropCells]
  | cons p r ih =>
      by_cases hp : p.1 ∈ cs
      · simpa [dropCells, List.filter_cons, hp] using ih
      · have hne : (c == p.1) = false := by
          simp only [beq_eq_false_iff_ne, ne_eq]
          intro hcp
          exact hp (hcp ▸ h)
        simpa [dropCells, List.filter_cons, hp, List.lookup, hne] using ih

theorem lookup_dropCells_not_mem (r : Row) (cs : List String) (c : String)
    (h : c ∉ cs) : (r.dropCells cs).lookup c = r.lookup c := by
  induction r with
  | nil => simp [dropCells]
  | cons p r ih =>
      by_cases hp : p.1 ∈ cs
      · have hne : (c == p.1) = false := by
          simp only [beq_eq_false_iff_ne, ne_eq]
          intro hcp
          exact h (hcp ▸ hp)
        simpa [dropCells, List.filter_cons, hp, List.lookup, hne] using ih
      · by_cases hc : (c == p.1) = true
        · simp [dropCells, List.filter_cons, hp, List.lookup, hc]
        · simp only [Bool.not_eq_true] at hc
          simpa [dropCells, List.filter_cons, hp, List.lookup, hc] using ih

theorem lookup_mapCell_self (r : Row) (c : String) (f : Value → Value) :
    (r.mapCell c f).lookup c = (r.lookup c).map f := by
  induction r with
  | nil => simp [mapCell]
  | cons p r ih =>
      obtain ⟨a, b⟩ := p
      by_cases h : a = c
      · subst h
        rw [mapCell, if_pos rfl]
        have hb : (a == a) = true := by simp
        simp [List.lookup, hb]
      · rw [mapCell, if_neg h]
        have hb : (c == a) = false := by simp [Ne.symm h]
        simp [List.lookup, hb, ih]

theorem lookup_mapCell_ne (r : Row) (c c' : String) (f : Value → Value)
    (h : c' ≠ c) : (r.mapCell c f).lookup c' = r.lookup c' := by
  induction r with
  | nil => simp [mapCell]
  | cons p r ih =>
      obtain ⟨a, b⟩ := p
      by_cases hp : a = c
      · subst hp
        rw [mapCell, if_pos rfl]
        have hb : (c' == a) = false := by simp [h]
        simp [List.lookup, hb, ih]
      · rw [mapCell, if_neg hp]
        by_cases hp' : (c' == a) = true
        · simp [List.lookup, hp']
        · simp only [Bool.not_eq_true] at hp'
          simp [List.lookup, hp', ih]

theorem cell_setCell_self (r : Row) (c : String) (v : Value) :
    (r.setCell c v).cell c = v := by
  simp [cell, lookup_setCell_self]

theorem cell_setCell_ne (r : Row) (c c' : String) (v : Value) (h : c' ≠ c) :
    (r.setCell c v).cell c' = r.cell c' := by
  simp [cell, lookup_setCell_ne _ _ _ _ h]

theorem cell_dropCells_not_mem (r : Row) (cs : List String) (c : String)
    (h : c ∉ cs) : (r.dropCells cs).cell c = r.cell c := by
  simp [cell, lookup_dropCells_not_mem _ _ _ h]

end Row

theorem firstSeenAux_congr [DecidableEq α] {s₁ s₂ : List α}
    (h : ∀ x, x ∈ s₁ ↔ x ∈ s₂) (l : List α) :
    firstSeenAux s₁ l = firstSeenAux s₂ l := by
  induction l generalizing s₁ s₂ with
  | nil => rfl
  | cons x xs ih =>
      have hcons : ∀ y, y ∈ x :: s₁ ↔ y ∈ x :: s₂ := by
        intro y
        simp [List.mem_cons, h y]
      by_cases hm : x ∈ s₁
      · simp only [firstSeenAux]
        rw [if_pos hm, if_pos ((h x).1 hm)]
        exact ih hcons
      · simp only [firstSeenAux]
        rw [if_neg hm, if_neg (fun hc => hm ((h x).2 hc))]
        exact congrArg _ (ih hcons)

theorem firstSeenAux_nil_of_subset [DecidableEq α] {seen : List α}
    {l : List α} (h : ∀ x ∈ l, x ∈ seen) : firstSeenAux seen l = [] := by
  induction l generalizing seen with
  | nil => rfl
  | cons x xs ih =>
      have hx : x ∈ seen := h x (by simp)
      simp only [firstSeenAux]
      rw [if_pos hx]
      exact ih (fun y hy => by simp [h y (by simp [hy])])

theorem firstSeenAux_append [DecidableEq α] (seen l m : List α) :
    firstSeenAux seen (l ++ m) =
      firstSeenAux seen l ++ firstSeenAux (l.reverse ++ seen) m := by
  induction l generalizing seen with
  | nil => simp [firstSeenAux]
  | cons x xs ih =>
      have hcg :
          firstSeenAux (xs.reverse ++ x :: seen) m =
            firstSeenAux ((x :: xs).reverse ++ seen) m := by
        refine firstSeenAux_congr (fun y => ?_) m
        simp [List.mem_append, List.mem_cons, List.mem_reverse]
      by_cases hm : x ∈ seen
      · rw [List.cons_append]
        simp only [firstSeenAux]
        rw [if_pos hm, if_pos hm, ih (x :: seen), hcg]
      · rw [List.cons_append]
        simp only [firstSeenAux]
        rw [if_neg hm, if_neg hm, ih (x :: seen), hcg]
        simp

theorem mem_firstSeenAux [DecidableEq α] {seen l : List α} {x : α} :
    x ∈ firstSeenAux seen l ↔ x ∈ l ∧ x ∉ seen := by
  induction l generalizing seen with
  | nil => simp [firstSeenAux]
  | cons y ys ih =>
      by_cases hy : y ∈ seen
      · simp only [firstSeenAux]
        rw [if_pos hy, ih]
        constructor
        · rintro ⟨h1, h2⟩
          exact ⟨List.mem_cons_of_mem _ h1,
                 fun hc => h2 (List.mem_cons_of_mem _ hc)⟩
        · rintro ⟨h1, h2⟩
          rcases List.mem_cons.1 h1 with rfl | hys
          · exact absurd hy h2
          · refine ⟨hys, fun hc => ?_⟩
            rcases List.mem_cons.1 hc with rfl | hsc
            · exact h2 hy
            · exact h2 hsc
      · simp only [firstSeenAux]
        rw [if_neg hy, List.mem_cons, ih]
        constructor
        · rintro (rfl | ⟨h1, h2⟩)
          · exact ⟨List.mem_cons_self _ _, hy⟩
          · exact ⟨List.mem_cons_of_mem _ h1,
                   fun hc => h2 (List.mem_cons_of_mem _ hc)⟩
        · rintro ⟨h1, h2⟩
          by_cases hxy : x = y
          · exact Or.inl hxy
          · rcases List.mem_cons.1 h1 with rfl | hys
            · exact absurd rfl hxy
            · refine Or.inr ⟨hys, fun hc => ?_⟩
              rcases List.mem_cons.1 hc with rfl | hsc
              · exact hxy rfl
              · exact h2 hsc

theorem mem_firstSeen [DecidableEq α] {l : List α} {x : α} :
    x ∈ firstSeen l ↔ x ∈ l := by
  simp [firstSeen, mem_firstSeenAux]

theorem firstSeenAux_nodup [DecidableEq α] (seen l : List α) :
    (firstSeenAux seen l).Nodup := by
  induction l generalizing seen with
  | nil => simp [firstSeenAux]
  | cons x xs ih =>
      by_cases hx : x ∈ seen
      · simp only [firstSeenAux]
        rw [if_pos hx]
        exact ih (x :: seen)
      · simp only [firstSeenAux]
        rw [if_neg hx]
        simp only [List.nodup_cons]
        refine ⟨fun hc => ?_, ih (x :: seen)⟩
        exact (mem_firstSeenAux.1 hc).2 (by simp)

theorem firstSeen_nodup [DecidableEq α] (l : List α) :
    (firstSeen l).Nodup := firstSeenAux_nodup [] l

/-! ### The key order is total and transitive -/

theorem charsLe_trans :
    ∀ a b c : List Char, charsLe a b → charsLe b c → charsLe a c
  | [], _, _, _, _ => rfl
  | x :: xs, [], _, h, _ => by simp [charsLe] at h
  | x :: xs, y :: ys, [], _, h => by simp [charsLe] at h
  | x :: xs, y :: ys, z :: zs, h1, h2 => by
      simp only [charsLe] at h1 h2 ⊢
      by_cases hxy : x.toNat = y.toNat <;> by_cases hyz : y.toNat = z.toNat
      · rw [if_pos hxy] at h1
        rw [if_pos hyz] at h2
        rw [if_pos (hxy.trans hyz)]
        exact charsLe_trans xs ys zs h1 h2
      · rw [if_pos hxy] at h1
        rw [if_neg hyz] at h2
        simp only [decide_eq_true_eq] at h2
        rw [if_neg (by omega)]
        simp only [decide_eq_true_eq]
        omega
      · rw [if_neg hxy] at h1
        rw [if_pos hyz] at h2
        simp only [decide_eq_true_eq] at h1
        rw [if_neg (by omega)]
        simp only [decide_eq_true_eq]
        omega
      · rw [if_neg hxy] at h1
        rw [if_neg hyz] at h2
        simp only [decide_eq_true_eq] at h1 h2
        rw [if_neg (by omega)]
        simp only [decide_eq_true_eq]
        omega

theorem charsLe_total : ∀ a b : List Char, charsLe a b ∨ charsLe b a
  | [], _ => Or.inl rfl
  | _ :: _, [] => Or.inr rfl
  | x :: xs, y :: ys => by
      simp only [charsLe]
      by_cases hxy : x.toNat = y.toNat
      · rw [if_pos hxy, if_pos hxy.symm]
        exact charsLe_total xs ys
      · rw [if_neg hxy, if_neg (fun h => hxy h.symm)]
        simp only [decide_eq_true_eq]
        omega

theorem charsLe_antisymm :
    ∀ a b : List Char, charsLe a b → charsLe b a → a = b
  | [], [], _, _ => rfl
  | [], _ :: _, _, h => by simp [charsLe] at h
  | _ :: _, [], h, _ => by simp [charsLe] at h
  | x :: xs, y :: ys, h1, h2 => by
      simp only [charsLe] at h1 h2
      by_cases hxy : x.toNat = y.toNat
      · rw [if_pos hxy] at h1
        rw [if_pos hxy.symm] at h2
        have hx : x = y := Char.ext (UInt32.ext hxy)
        rw [hx, charsLe_antisymm xs ys h1 h2]
      · rw [if_neg hxy] at h1
        rw [if_neg (fun h => hxy h.symm)] at h2
        simp only [decide_eq_true_eq] at h1 h2
        omega

theorem strLe_trans {a b c : String} (h1 : strLe a b) (h2 : strLe b c) :
    strLe a c := charsLe_trans _ _ _ h1 h2

theorem strLe_total (a b : String) : strLe a b ∨ strLe b a :=
  charsLe_total a.data b.data

theorem strLe_antisymm {a b : String} (h1 : strLe a b) (h2 : strLe b a) :
    a = b := by
  have h := charsLe_antisymm a.data b.data h1 h2
  cases a
  cases b
  exact congrArg String.mk h

/-- Constructor rank used by the arbitrary cross-kind fallback order. -/
def valueRank : Value → Nat
  | .bool _ => 0
  | .num _ => 1
  | .str _ => 2
  | .na => 3

theorem valueLe_trans :
    ∀ a b c : Value, valueLe a b → valueLe b c → valueLe a c := by
  intro a b c h1 h2
  cases a <;> cases b <;> cases c <;>
    simp only [valueLe, decide_eq_true_eq] at h1 h2 ⊢ <;>
    first
      | trivial
      | omega
      | exact strLe_trans h1 h2
      | exact le_trans h1 h2
      | (rename_i x y z
         revert h1 h2
         cases x <;> cases y <;> cases z <;> decide)

theorem valueLe_total : ∀ a b : Value, valueLe a b ∨ valueLe b a := by
  intro a b
  cases a <;> cases b <;>
    simp only [valueLe, decide_eq_true_eq] <;>
    first
      | exact Or.inl trivial
      | omega
      | exact strLe_total _ _
      | (rename_i p q; exact le_total p q)
      | (rename_i x y; cases x <;> cases y <;> simp)

theorem valueLe_antisymm :
    ∀ a b : Value, valueLe a b → valueLe b a → a = b := by
  intro a b h1 h2
  cases a <;> cases b <;>
    simp only [valueLe, decide_eq_true_eq] at h1 h2 <;>
    first
      | rfl
      | trivial
      | omega
      | exact congrArg Value.str (strLe_antisymm h1 h2)
      | exact congrArg Value.num (le_antisymm h1 h2)
      | (rename_i x y
         revert h1 h2
         cases x <;> cases y <;> simp)

theorem keyLe_trans :
    ∀ a b c : List Value, keyLe a b → keyLe b c → keyLe a c
  | [], _, _, _, _ => rfl
  | _ :: _, [], _, h, _ => by simp [keyLe] at h
  | _ :: _, _ :: _, [], _, h => by simp [keyLe] at h
  | x :: xs, y :: ys, z :: zs, h1, h2 => by
      simp only [keyLe] at h1 h2 ⊢
      by_cases hxy : x = y <;> by_cases hyz : y = z
      · rw [if_pos hxy] at h1
        rw [if_pos hyz] at h2
        rw [if_pos (hxy.trans hyz)]
        exact keyLe_trans xs ys zs h1 h2
      · rw [if_pos hxy] at h1
        rw [if_neg hyz] at h2
        rw [if_neg (hxy ▸ hyz), hxy]
        exact h2
      · rw [if_neg hxy] at h1
        rw [if_pos hyz] at h2
        rw [if_neg (hyz ▸ hxy), ← hyz]
        exact h1
      · rw [if_neg hxy] at h1
        rw [if_neg hyz] at h2
        by_cases hxz : x = z
        · exact absurd (valueLe_antisymm x y h1 (hxz ▸ h2)) hxy
        · rw [if_neg hxz]
          exact valueLe_trans x y z h1 h2

theorem keyLe_total : ∀ a b : List Value, keyLe a b ∨ keyLe b a
  | [], _ => Or.inl rfl
  | _ :: _, [] => Or.inr rfl
  | x :: xs, y :: ys => by
      simp only [keyLe]
      by_cases hxy : x = y
      · rw [if_pos hxy, if_pos hxy.symm]
        exact keyLe_total xs ys
      · rw [if_neg hxy, if_neg (fun h => hxy h.symm)]
        exact valueLe_total x y

/-! ### Insertion sort lemmas -/

theorem insSorted_perm (le : α → α → Bool) (x : α) (l : List α) :
    List.Perm (insSorted le x l) (x :: l) := by
  induction l with
  | nil => exact List.Perm.refl _
  | cons y ys ih =>
      by_cases h : le x y
      · rw [insSorted, if_pos h]
      · rw [insSorted, if_neg h]
        exact (ih.cons y).trans (List.Perm.swap x y ys)

theorem insSort_perm (le : α → α → Bool) (l : List α) :
    List.Perm (insSort le l) l := by
  induction l with
  | nil => exact List.Perm.refl _
  | cons x xs ih =>
      exact (insSorted_perm le x (insSort le xs)).trans (ih.cons x)

theorem insSorted_pairwise (le : α → α → Bool)
    (htrans : ∀ a b c, le a b → le b c → le a c)
    (htot : ∀ a b, le a b ∨ le b a) (x : α) (l : List α)
    (h : l.Pairwise (fun a b => le a b)) :
    (insSorted le x l).Pairwise (fun a b => le a b) := by
  induction l with
  | nil => simp [insSorted]
  | cons y ys ih =>
      rcases h with _ | ⟨hy, hys⟩
      by_cases hxy : le x y
      · rw [insSorted, if_pos hxy]
        refine List.Pairwise.cons ?_ (List.Pairwise.cons hy hys)
        intro z hz
        rcases List.mem_cons.1 hz with rfl | hz2
        · exact hxy
        · exact htrans x y z hxy (hy z hz2)
      · rw [insSorted, if_neg hxy]
        refine List.Pairwise.cons ?_ (ih hys)
        intro z hz
        rcases (insSorted_perm le x ys).mem_iff.1 hz with hz2
        rcases List.mem_cons.1 hz2 with rfl | hz3
        · rcases htot z y with h | h
          · exact absurd h hxy
          · exact h
        · exact hy z hz3

theorem insSort_pairwise (le : α → α → Bool)
    (htrans : ∀ a b c, le a b → le b c → le a c)
    (htot : ∀ a b, le a b ∨ le b a) (l : List α) :
    (insSort le l).Pairwise (fun a b => le a b) := by
  induction l with
  | nil => simp [insSort]
  | cons x xs ih => exact insSorted_pairwise le htrans htot x _ ih

theorem sortGroups_perm (gs : List (List Value × List Row)) :
    List.Perm (sortGroups gs) gs := insSort_perm _ gs

theorem sortGroups_pairwise (gs : List (List Value × List Row)) :
    (sortGroups gs).Pairwise (fun a b => keyLe a.1 b.1) :=
  insSort_pairwise _
    (fun a b c h1 h2 => keyLe_trans a.1 b.1 c.1 h1 h2)
    (fun a b => keyLe_total a.1 b.1) gs

/-! ### Grouping lemmas -/

theorem insertGroup_fst (acc : List (List Value × List Row)) (k : List Value)
    (r : Row) :
    (insertGroup acc k r).map Prod.fst =
      if k ∈ acc.map Prod.fst then acc.map Prod.fst
      else acc.map Prod.fst ++ [k] := by
  by_cases h : acc.any (fun p => p.1 = k)
  · have hk : k ∈ acc.map Prod.fst := by
      rcases List.any_eq_true.1 h with ⟨p, hp, hpk⟩
      simp only [decide_eq_true_eq] at hpk
      exact hpk ▸ List.mem_map_of_mem Prod.fst hp
    rw [insertGroup, if_pos h, if_pos hk, List.map_map]
    refine List.map_congr_left (fun q _ => ?_)
    by_cases hq : q.1 = k <;> simp [hq]
  · have hk : k ∉ acc.map Prod.fst := by
      intro hc
      rcases List.mem_map.1 hc with ⟨p, hp, hpk⟩
      exact absurd (List.any_eq_true.2 ⟨p, hp, by simp [hpk]⟩) h
    rw [insertGroup, if_neg h, if_neg hk]
    simp

theorem groupPairs_fold_fst (key : Row → List Value) :
    ∀ (rows : List Row) (acc : List (List Value × List Row)),
      ((rows.foldl (fun acc r => insertGroup acc (key r) r) acc).map Prod.fst)
        = acc.map Prod.fst ++
            firstSeenAux (acc.map Prod.fst) (rows.map key) := by
  intro rows
  induction rows with
  | nil => intro acc; simp [firstSeenAux]
  | cons r rows ih =>
      intro acc
      rw [List.foldl_cons, ih (insertGroup acc (key r) r), insertGroup_fst,
        List.map_cons]
      by_cases hm : key r ∈ acc.map Prod.fst
      · rw [if_pos hm]
        simp only [firstSeenAux]
        rw [if_pos hm]
        refine congrArg _ (firstSeenAux_congr (fun y => ?_) _)
        constructor
        · exact fun hy => List.mem_cons_of_mem _ hy
        · intro hy
          rcases List.mem_cons.1 hy with rfl | hy2
          · exact hm
          · exact hy2
      · rw [if_neg hm]
        simp only [firstSeenAux]
        rw [if_neg hm, List.append_assoc]
        refine congrArg _ ?_
        rw [List.singleton_append]
        refine congrArg _ (firstSeenAux_congr (fun y => ?_) _)
        simp only [List.mem_append, List.mem_cons, List.not_mem_nil, or_false]
        exact or_comm

theorem groupPairs_fst (key : Row → List Value) (rows : List Row) :
    (groupPairs key rows).map Prod.fst = firstSeen (rows.map key) := by
  simpa [groupPairs, firstSeen] using groupPairs_fold_fst key rows []

theorem groupPairs_nodup_fst (key : Row → List Value) (rows : List Row) :
    ((groupPairs key rows).map Prod.fst).Nodup := by
  rw [groupPairs_fst]
  exact firstSeen_nodup _

/-- Invariant of the grouping fold: every accumulated group holds exactly
the processed rows with its key, and every processed row has its key
registered. -/
def GroupInv (key : Row → List Value) (processed : List Row)
    (acc : List (List Value × List Row)) : Prop :=
  (∀ p ∈ acc, p.2 = processed.filter (fun r => decide (key r = p.1))) ∧
  (∀ r ∈ processed, key r ∈ acc.map Prod.fst)

theorem insertGroup_inv (key : Row → List Value) (processed : List Row)
    (acc : List (List Value × List Row)) (r : Row)
    (h : GroupInv key processed acc) :
    GroupInv key (processed ++ [r]) (insertGroup acc (key r) r) := by
  obtain ⟨h1, h2⟩ := h
  by_cases hmem : acc.any (fun p => p.1 = key r)
  · constructor
    · intro p hp
      rw [insertGroup, if_pos hmem] at hp
      rcases List.mem_map.1 hp with ⟨q, hq, hqp⟩
      by_cases hqk : q.1 = key r
      · rw [if_pos hqk] at hqp
        subst hqp
        rw [List.filter_append, h1 q hq]
        simp [hqk]
      · rw [if_neg hqk] at hqp
        subst hqp
        rw [List.filter_append, h1 q hq]
        have : decide (key r = q.1) = false := by
          simp only [decide_eq_false_iff_not]
          exact fun hc => hqk hc.symm
        simp [this]
    · intro r' hr'
      have hfst : (insertGroup acc (key r) r).map Prod.fst = acc.map Prod.fst := by
        rw [insertGroup_fst]
        rcases List.any_eq_true.1 hmem with ⟨p, hp, hpk⟩
        simp only [decide_eq_true_eq] at hpk
        rw [if_pos (hpk ▸ List.mem_map_of_mem Prod.fst hp)]
      rw [hfst]
      rcases List.mem_append.1 hr' with hr2 | hr2
      · exact h2 r' hr2
      · rcases List.any_eq_true.1 hmem with ⟨p, hp, hpk⟩
        simp only [decide_eq_true_eq] at hpk
        rw [List.mem_singleton.1 hr2, ← hpk]
        exact List.mem_map_of_mem Prod.fst hp
  · constructor
    · intro p hp
      rw [insertGroup, if_neg hmem] at hp
      rcases List.mem_append.1 hp with hp2 | hp2
      · rw [List.filter_append, h1 p hp2]
        have : decide (key r = p.1) = false := by
          simp only [decide_eq_false_iff_not]
          intro hc
          exact absurd (List.any_eq_true.2 ⟨p, hp2, by simp [hc.symm]⟩) hmem
        simp [this]
      · rw [List.mem_singleton.1 hp2]
        have hnone : processed.filter (fun r' => decide (key r' = key r)) = [] := by
          rw [List.filter_eq_nil_iff]
          intro r' hr' hc
          simp only [decide_eq_true_eq] at hc
          rcases List.mem_map.1 (h2 r' hr') with ⟨q, hq, hqk⟩
          exact absurd (List.any_eq_true.2 ⟨q, hq, by simp [hqk, hc]⟩) hmem
        rw [List.filter_append, hnone]
        simp
    · intro r' hr'
      rw [insertGroup, if_neg hmem, List.map_append]
      rcases List.mem_append.1 hr' with hr2 | hr2
      · exact List.mem_append_left _ (h2 r' hr2)
      · rw [List.mem_singleton.1 hr2]
        simp

theorem groupPairs_fold_inv (key : Row → List Value) :
    ∀ (rows processed : List Row) (acc : List (List Value × List Row)),
      GroupInv key processed acc →
      GroupInv key (processed ++ rows)
        (rows.foldl (fun acc r => insertGroup acc (key r) r) acc) := by
  intro rows
  induction rows with
  | nil => intro processed acc h; simpa using h
  | cons r rows ih =>
      intro processed acc h
      have h2 := ih (processed ++ [r]) _ (insertGroup_inv key processed acc r h)
      rw [List.append_assoc] at h2
      simpa using h2

theorem groupPairs_val (key : Row → List Value) (rows : List Row) :
    ∀ p ∈ groupPairs key rows,
      p.2 = rows.filter (fun r => decide (key r = p.1)) := by
  have h := groupPairs_fold_inv key rows [] [] ⟨by simp, by simp⟩
  simpa [groupPairs] using h.1

theorem groupPairs_covers (key : Row → List Value) (rows : List Row) :
    ∀ r ∈ rows, key r ∈ (groupPairs key rows).map Prod.fst := by
  have h := groupPairs_fold_inv key rows [] [] ⟨by simp, by simp⟩
  simpa [groupPairs] using h.2


/-! ### Normal form of the cleaning stages -/

theorem DataFrame.columns_mk (c : List String) (r : List Row) :
    (DataFrame.mk c r).columns = c := rfl

theorem DataFrame.rows_mk (c : List String) (r : List Row) :
    (DataFrame.mk c r).rows = r := rfl

theorem except_ok_bind {α β ε : Type} (x : α) (f : α → Except ε β) :
    (Except.ok x >>= f : Except ε β) = f x := rfl

theorem except_error_bind {α β ε : Type} (e : ε) (f : α → Except ε β) :
    ((Except.error e : Except ε α) >>= f : Except ε β) = .error e := rfl

/-- Columns of the frame produced by projecting onto `DESIRED_COLUMNS` and
applying the Phone Composer. -/
def phonedColumns : List String :=
  ["WSP", "PLAT.", "CORTE", "CLIENTE", "PANTALLA", "VALOR", "DIAS", "TELEFONO"]

/-- Row image of projecting onto `DESIRED_COLUMNS` and applying the Phone
Composer (established against the embedded source functions by
`add_phone_project_desired`). -/
def phonedRowFun (r : Row) : Row :=
  [("WSP", r.cell "WSP"), ("PLAT.", r.cell "PLAT."), ("CORTE", r.cell "CORTE"),
   ("CLIENTE", r.cell "CLIENTE"), ("PANTALLA", r.cell "PANTALLA"),
   ("VALOR", r.cell "VALOR"), ("DIAS", r.cell "DIAS"),
   ("TELEFONO", .str (Value.pyStr (r.cell "INDICATIVO") ++ " " ++ Value.pyStr (r.cell "CONTACTO")))]

theorem add_phone_project_desired (df : DataFrame) :
    add_phone_column (df.project DESIRED_COLUMNS) =
      .ok ⟨phonedColumns, df.rows.map phonedRowFun⟩ := by
  rw [add_phone_column, DataFrame.project, DataFrame.setCol, DataFrame.dropCols]
  simp only [DataFrame.columns_mk, DataFrame.rows_mk, List.map_map]
  have h1 : ¬¬(List.filter (fun c => decide (c ∉ DESIRED_COLUMNS))
      ["INDICATIVO", "CONTACTO"]).isEmpty = true := by decide
  have h2 : ¬("TELEFONO" ∈ DESIRED_COLUMNS) := by decide
  rw [if_neg h1, if_neg h2]
  refine congrArg Except.ok ?_
  refine congrArg₂ DataFrame.mk (by decide) ?_
  exact List.map_congr_left (fun r _ => rfl)

theorem processVALOR_mk (C : List String) (R : List Row) (h : "VALOR" ∈ C) :
    processVALOR ⟨C, R⟩ =
      if R.all (fun r => valorOk (valorPre (r.cell "VALOR"))) then
        .ok ⟨C, R.map (fun r => r.mapCell "VALOR" (fun v => valorVal (valorPre v)))⟩
      else .error .invalidNumeric := by
  rw [processVALOR, if_pos (show "VALOR" ∈ (DataFrame.mk C R).columns from h)]
  rfl

theorem processCORTE_mk (C : List String) (R : List Row) (h : "CORTE" ∈ C) :
    processCORTE ⟨C, R⟩ = ⟨C, R.map (fun r => r.mapCell "CORTE" corteCell)⟩ := by
  rw [processCORTE, if_pos (show "CORTE" ∈ (DataFrame.mk C R).columns from h)]
  rfl

/-- Column list of a successfully pre-filtered frame (after projection,
phone composition and the renames). -/
def cleanedColumns : List String :=
  ["VENDEDOR", "PLATAFORMA", "CORTE", "CLIENTE", "PANTALLA", "VALOR", "DIAS", "TELEFONO"]

/-- Row image of the cleaning stages before the row filter: projection,
phone composition, renames, amount parsing and cut-flag parsing
(established against the embedded source functions by
`cleanPrefilter_desired`). -/
def cleanRowFun (r : Row) : Row :=
  [("VENDEDOR", r.cell "WSP"), ("PLATAFORMA", r.cell "PLAT."),
   ("CORTE", corteCell (r.cell "CORTE")), ("CLIENTE", r.cell "CLIENTE"),
   ("PANTALLA", r.cell "PANTALLA"),
   ("VALOR", valorVal (valorPre (r.cell "VALOR"))), ("DIAS", r.cell "DIAS"),
   ("TELEFONO", .str (Value.pyStr (r.cell "INDICATIVO") ++ " " ++ Value.pyStr (r.cell "CONTACTO")))]

/-- Normal form of `cleanPrefilter` on the production column list: the
emptiness check, the missing-columns check, then either the InvalidNumeric
failure or the per-row cleaning image. -/
theorem cleanPrefilter_desired (df : DataFrame) :
    cleanPrefilter df DESIRED_COLUMNS =
      if df.empty then .error .emptyInput
      else if ¬ (DESIRED_COLUMNS.filter (fun c => decide (c ∉ df.columns))).isEmpty then
        .error (.missingColumns (DESIRED_COLUMNS.filter (fun c => decide (c ∉ df.columns))))
      else if df.rows.all (fun r => valorOk (valorPre (r.cell "VALOR"))) then
        .ok ⟨cleanedColumns, df.rows.map cleanRowFun⟩
      else .error .invalidNumeric := by
  rw [cleanPrefilter]
  by_cases h1 : df.empty
  · rw [if_pos h1, if_pos h1]
  · rw [if_neg h1, if_neg h1]
    by_cases h2 : ¬ (DESIRED_COLUMNS.filter (fun c => decide (c ∉ df.columns))).isEmpty
    · rw [if_pos h2, if_pos h2]
    · rw [if_neg h2, if_neg h2]
      rw [add_phone_project_desired, except_ok_bind]
      rw [DataFrame.renameCols]
      simp only [DataFrame.columns_mk, DataFrame.rows_mk]
      have hmem : "VALOR" ∈ phonedColumns.map
          (fun c => ((([("WSP", "VENDEDOR"), ("PLAT.", "PLATAFORMA")] :
            List (String × String)).lookup c).getD c)) := by decide
      rw [processVALOR_mk _ _ hmem]
      have hcond : ((df.rows.map phonedRowFun).map
            (fun r => Row.renameCells r [("WSP", "VENDEDOR"), ("PLAT.", "PLATAFORMA")])).all
            (fun r => valorOk (valorPre (Row.cell r "VALOR"))) =
          df.rows.all (fun r => valorOk (valorPre (Row.cell r "VALOR"))) := by
        rw [List.all_map, List.all_map]
        rfl
      rw [hcond]
      by_cases h4 : df.rows.all (fun r => valorOk (valorPre (Row.cell r "VALOR")))
      · rw [if_pos h4, if_pos h4, except_ok_bind]
        have hmemC : "CORTE" ∈ phonedColumns.map
            (fun c => ((([("WSP", "VENDEDOR"), ("PLAT.", "PLATAFORMA")] :
              List (String × String)).lookup c).getD c)) := by decide
        rw [processCORTE_mk _ _ hmemC]
        show Except.ok _ = _
        refine congrArg Except.ok (congrArg₂ DataFrame.mk (by decide) ?_)
        simp only [List.map_map]
        exact List.map_congr_left (fun r _ => rfl)
      · rw [if_neg h4, if_neg h4]
        rfl


/-! ### Inversion lemmas for `clean_data` -/

theorem filterStage_ok {mid out : DataFrame} (h : filterStage mid = .ok out) :
    ("VALOR" ∈ mid.columns ∧ "CORTE" ∈ mid.columns) ∧
    out = DataFrame.dropCols ⟨mid.columns, mid.rows.filter maskRow⟩ ["VALOR"] := by
  rw [filterStage] at h
  by_cases hc : "VALOR" ∈ mid.columns ∧ "CORTE" ∈ mid.columns
  · rw [if_pos hc] at h
    exact ⟨hc, (Except.ok.inj h).symm⟩
  · rw [if_neg hc] at h
    simp at h

theorem filterStage_error {mid : DataFrame} {e : PipeError}
    (h : filterStage mid = .error e) : e = .filterError := by
  rw [filterStage] at h
  by_cases hc : "VALOR" ∈ mid.columns ∧ "CORTE" ∈ mid.columns
  · rw [if_pos hc] at h
    simp at h
  · rw [if_neg hc] at h
    exact (Except.error.inj h).symm

theorem add_phone_error {df : DataFrame} {e : PipeError}
    (h : add_phone_column df = .error e) :
    ∃ l, l ≠ [] ∧ e = .missingColumns l := by
  rw [add_phone_column] at h
  by_cases hm : ¬ (["INDICATIVO", "CONTACTO"].filter
      (fun c => decide (c ∉ df.columns))).isEmpty
  · rw [if_pos hm] at h
    refine ⟨_, ?_, (Except.error.inj h).symm⟩
    intro hnil
    rw [hnil] at hm
    exact hm rfl
  · rw [if_neg hm] at h
    simp at h

theorem processVALOR_error {df : DataFrame} {e : PipeError}
    (h : processVALOR df = .error e) : e = .invalidNumeric := by
  rw [processVALOR] at h
  by_cases hc : "VALOR" ∈ df.columns
  · rw [if_pos hc] at h
    by_cases ha : df.rows.all (fun r => valorOk (valorPre (r.cell "VALOR")))
    · rw [if_pos ha] at h
      simp at h
    · rw [if_neg ha] at h
      exact (Except.error.inj h).symm
  · rw [if_neg hc] at h
    simp at h

theorem cleanPrefilter_error_kinds {df : DataFrame} {desired : List String}
    {e : PipeError} (h : cleanPrefilter df desired = .error e) :
    e = .emptyInput ∨ (∃ l, l ≠ [] ∧ e = .missingColumns l) ∨
      e = .invalidNumeric := by
  rw [cleanPrefilter] at h
  by_cases h1 : df.empty
  · rw [if_pos h1] at h
    exact Or.inl (Except.error.inj h).symm
  · rw [if_neg h1] at h
    by_cases h2 : ¬ (desired.filter (fun c => decide (c ∉ df.columns))).isEmpty
    · rw [if_pos h2] at h
      refine Or.inr (Or.inl ⟨_, ?_, (Except.error.inj h).symm⟩)
      intro hnil
      rw [hnil] at h2
      exact h2 rfl
    · rw [if_neg h2] at h
      cases hp : add_phone_column (df.project desired) with
      | error e1 =>
          rw [hp, except_error_bind] at h
          rcases add_phone_error hp with ⟨l, hl, rfl⟩
          exact Or.inr (Or.inl ⟨l, hl, (Except.error.inj h).symm⟩)
      | ok dfp =>
          rw [hp, except_ok_bind] at h
          simp only [] at h
          cases hv : processVALOR (dfp.renameCols
              [("WSP", "VENDEDOR"), ("PLAT.", "PLATAFORMA")]) with
          | error e2 =>
              rw [hv, except_error_bind] at h
              rw [processVALOR_error hv] at h
              exact Or.inr (Or.inr (Except.error.inj h).symm)
          | ok dfv =>
              rw [hv, except_ok_bind] at h
              simp [pure, Except.pure] at h

theorem clean_data_not_invalidBoolean (df : DataFrame) (desired : List String) :
    clean_data df desired ≠ .error .invalidBoolean := by
  intro h
  rw [clean_data] at h
  cases hp : cleanPrefilter df desired with
  | error e =>
      rw [hp, except_error_bind] at h
      rw [Except.error.inj h] at hp
      rcases cleanPrefilter_error_kinds hp with h1 | ⟨l, _, h1⟩ | h1 <;> cases h1
  | ok mid =>
      rw [hp, except_ok_bind] at h
      cases filterStage_error h

/-! ### The row filter of `clean_data` -/

theorem maskRow_corte {r : Row} (h : maskRow r = true) :
    r.lookup "CORTE" = some (.bool false) := by
  rw [maskRow, Bool.and_eq_true] at h
  have h2 := h.2
  rw [notCutCell.eq_def] at h2
  cases hl : r.lookup "CORTE" with
  | none =>
      rw [Row.cell, hl] at h2
      simp at h2
  | some v =>
      rw [Row.cell, hl] at h2
      cases v with
      | bool b =>
          cases b with
          | true => simp at h2
          | false => rfl
      | str s => simp at h2
      | num q => simp at h2
      | na => simp at h2

theorem maskRow_valor {r : Row} (h : maskRow r = true) :
    ∃ q : Rat, r.lookup "VALOR" = some (.num q) ∧ 0 < q := by
  rw [maskRow, Bool.and_eq_true] at h
  have h1 := h.1
  rw [gtZeroCell.eq_def] at h1
  cases hl : r.lookup "VALOR" with
  | none =>
      rw [Row.cell, hl] at h1
      simp at h1
  | some v =>
      rw [Row.cell, hl] at h1
      cases v with
      | num q =>
          refine ⟨q, rfl, ?_⟩
          simpa using h1
      | str s => simp at h1
      | bool b => simp at h1
      | na => simp at h1

theorem maskRow_of_corte_true {r : Row}
    (h : r.lookup "CORTE" = some (.bool true)) : maskRow r = false := by
  simp [maskRow, Row.cell, h, notCutCell]


theorem clean_data_def (df : DataFrame) (desired : List String) :
    clean_data df desired = cleanPrefilter df desired >>= filterStage := rfl

/-- Inversion of a successful `clean_data` run on the production columns:
the input was non-empty with all required columns, every amount parsed,
and the output is the filtered, `VALOR`-dropped image of the cleaned
rows. -/
theorem clean_data_desired_ok {df out : DataFrame}
    (h : clean_data df DESIRED_COLUMNS = .ok out) :
    df.empty = false ∧
    (DESIRED_COLUMNS.filter (fun c => decide (c ∉ df.columns))).isEmpty = true ∧
    df.rows.all (fun r => valorOk (valorPre (r.cell "VALOR"))) = true ∧
    cleanPrefilter df DESIRED_COLUMNS =
      .ok ⟨cleanedColumns, df.rows.map cleanRowFun⟩ ∧
    out = DataFrame.dropCols
      ⟨cleanedColumns, (df.rows.map cleanRowFun).filter maskRow⟩ ["VALOR"] := by
  rw [clean_data] at h
  cases hp : cleanPrefilter df DESIRED_COLUMNS with
  | error e =>
      rw [hp, except_error_bind] at h
      simp at h
  | ok mid =>
      rw [hp, except_ok_bind] at h
      have hp2 := hp
      rw [cleanPrefilter_desired] at hp2
      by_cases h1 : df.empty
      · rw [if_pos h1] at hp2
        simp at hp2
      · rw [if_neg h1] at hp2
        by_cases h2 : ¬ (DESIRED_COLUMNS.filter
            (fun c => decide (c ∉ df.columns))).isEmpty
        · rw [if_pos h2] at hp2
          simp at hp2
        · rw [if_neg h2] at hp2
          by_cases h4 : df.rows.all (fun r => valorOk (valorPre (r.cell "VALOR")))
          · rw [if_pos h4] at hp2
            have hmid : mid = ⟨cleanedColumns, df.rows.map cleanRowFun⟩ :=
              (Except.ok.inj hp2).symm
            subst hmid
            rcases filterStage_ok h with ⟨_, hout⟩
            refine ⟨Bool.eq_false_iff.2 h1, not_not.1 h2, h4, rfl, ?_⟩
            simpa using hout
          · rw [if_neg h4] at hp2
            simp at hp2

/-! ### Concrete sample frames used by the witnesses and counterexamples -/

/-- The raw header row of the round-trip scenario of the spec. -/
def sampleColumns : List String :=
  ["WSP", "CLIENTE", "PLAT.", "PANTALLA", "INDICATIVO", "CONTACTO", "VALOR", "DIAS", "CORTE"]

/-- The raw row of the round-trip scenario of the spec. -/
def sampleRow : Row :=
  [("WSP", .str "AB"), ("CLIENTE", .str "Maria Lopez"), ("PLAT.", .str "X"),
   ("PANTALLA", .str "HD"), ("INDICATIVO", .str "+57"), ("CONTACTO", .str "3001234567"),
   ("VALOR", .str "$10"), ("DIAS", .str "1"), ("CORTE", .str "")]

/-- The one-row raw frame of the round-trip scenario. -/
def sampleDF : DataFrame := ⟨sampleColumns, [sampleRow]⟩

/-- The cleaned image of `sampleDF` (no `VALOR` column left). -/
def sampleCleaned : DataFrame :=
  ⟨["VENDEDOR", "PLATAFORMA", "CORTE", "CLIENTE", "PANTALLA", "DIAS", "TELEFONO"],
   [[("VENDEDOR", .str "AB"), ("PLATAFORMA", .str "X"), ("CORTE", .bool false),
     ("CLIENTE", .str "Maria Lopez"), ("PANTALLA", .str "HD"),
     ("DIAS", .str "1"), ("TELEFONO", .str "+57 3001234567")]]⟩

/-- Like `sampleRow`, but with the unrecognized cut-flag literal "yes". -/
def corteYesDF : DataFrame :=
  ⟨sampleColumns,
   [[("WSP", .str "AB"), ("CLIENTE", .str "Maria Lopez"), ("PLAT.", .str "X"),
     ("PANTALLA", .str "HD"), ("INDICATIVO", .str "+57"), ("CONTACTO", .str "3001234567"),
     ("VALOR", .str "$10"), ("DIAS", .str "1"), ("CORTE", .str "yes")]]⟩

/-- Like `sampleRow`, but with the amount text "1$" (a non-leading dollar
sign). -/
def trailingDollarDF : DataFrame :=
  ⟨sampleColumns,
   [[("WSP", .str "AB"), ("CLIENTE", .str "Maria Lopez"), ("PLAT.", .str "X"),
     ("PANTALLA", .str "HD"), ("INDICATIVO", .str "+57"), ("CONTACTO", .str "3001234567"),
     ("VALOR", .str "1$"), ("DIAS", .str "1"), ("CORTE", .str "FALSE")]]⟩

/-- A raw frame whose header lacks the `DIAS` column. -/
def noDiasDF : DataFrame :=
  ⟨["WSP", "CLIENTE", "PLAT.", "PANTALLA", "INDICATIVO", "CONTACTO", "VALOR", "CORTE"],
   [[("WSP", .str "AB"), ("CLIENTE", .str "Maria Lopez"), ("PLAT.", .str "X"),
     ("PANTALLA", .str "HD"), ("INDICATIVO", .str "+57"), ("CONTACTO", .str "3001234567"),
     ("VALOR", .str "$10"), ("CORTE", .str "")]]⟩

/-! ### Claim C1 -/

/-- C1: every table accepted by the Cleaner yields an output without the
`VALOR` column but still carrying `CORTE` and `DIAS`, whose every row has
cut-flag `false` and came from a pre-filter row with a parsed amount
strictly greater than zero; any pre-filter row whose cut-flag parsed to
`true` fails the row filter (is dropped) regardless of its amount. -/
theorem c1_cleaner_invariant (df out : DataFrame)
    (h : clean_data df DESIRED_COLUMNS = .ok out) :
    "VALOR" ∉ out.columns ∧ "CORTE" ∈ out.columns ∧ "DIAS" ∈ out.columns ∧
    (∀ r ∈ out.rows, r.lookup "CORTE" = some (.bool false)) ∧
    ∃ mid, cleanPrefilter df DESIRED_COLUMNS = .ok mid ∧
      out.rows = (mid.rows.filter maskRow).map (fun r => r.dropCells ["VALOR"]) ∧
      (∀ r ∈ mid.rows.filter maskRow,
        (∃ q : Rat, r.lookup "VALOR" = some (.num q) ∧ 0 < q) ∧
        r.lookup "CORTE" = some (.bool false)) ∧
      (∀ r ∈ mid.rows, r.lookup "CORTE" = some (.bool true) → maskRow r = false) := by
  rcases clean_data_desired_ok h with ⟨-, -, -, hpre, hout⟩
  have hcols : out.columns =
      cleanedColumns.filter (fun c => decide (c ∉ ["VALOR"])) := by
    rw [hout]
    rfl
  have hrows : out.rows =
      ((df.rows.map cleanRowFun).filter maskRow).map
        (fun r => r.dropCells ["VALOR"]) := by
    rw [hout]
    rfl
  refine ⟨by rw [hcols]; decide, by rw [hcols]; decide, by rw [hcols]; decide,
    ?_, ⟨cleanedColumns, df.rows.map cleanRowFun⟩, hpre, by simpa using hrows,
    ?_, ?_⟩
  · intro r hr
    rw [hrows] at hr
    rcases List.mem_map.1 hr with ⟨r0, hr0, rfl⟩
    have hmask := (List.mem_filter.1 hr0).2
    rw [Row.lookup_dropCells_not_mem _ _ _ (by decide)]
    exact maskRow_corte hmask
  · intro r hr
    have hmask := (List.mem_filter.1 hr).2
    exact ⟨maskRow_valor hmask, maskRow_corte hmask⟩
  · intro r _ hc
    exact maskRow_of_corte_true hc

/-- C1 witness: the invariant instantiated on the spec round-trip row. -/
theorem c1_cleaner_invariant_witness :
    "VALOR" ∉ sampleCleaned.columns ∧ "CORTE" ∈ sampleCleaned.columns ∧
    "DIAS" ∈ sampleCleaned.columns ∧
    (∀ r ∈ sampleCleaned.rows, r.lookup "CORTE" = some (.bool false)) ∧
    ∃ mid, cleanPrefilter sampleDF DESIRED_COLUMNS = .ok mid ∧
      sampleCleaned.rows =
        (mid.rows.filter maskRow).map (fun r => r.dropCells ["VALOR"]) ∧
      (∀ r ∈ mid.rows.filter maskRow,
        (∃ q : Rat, r.lookup "VALOR" = some (.num q) ∧ 0 < q) ∧
        r.lookup "CORTE" = some (.bool false)) ∧
      (∀ r ∈ mid.rows, r.lookup "CORTE" = some (.bool true) → maskRow r = false) :=
  c1_cleaner_invariant sampleDF sampleCleaned (by decide)


/-! ### Claim C2 -/

/-- C2: the spec round-trip row, cleaned, day-filtered on "1", aggregated
and message-composed with the phrase "Mañana empieza", yields exactly one
record with owner "AB", customer "Maria Lopez", phone "+57 3001234567" and
the expected greeting message. -/
theorem c2_round_trip :
    (do
      let c ← clean_data sampleDF DESIRED_COLUMNS
      let f ← filter_data_by_day c "1"
      let p ← process_data f
      add_message_column p "Mañana empieza" : Except PipeError DataFrame) =
      .ok ⟨["VENDEDOR", "CLIENTE", "TELEFONO", "SERVICIO", "NOMBRE", "MENSAJE"],
        [[("VENDEDOR", .str "AB"), ("CLIENTE", .str "Maria Lopez"),
          ("TELEFONO", .str "+57 3001234567"), ("SERVICIO", .str "*X*: _HD_"),
          ("NOMBRE", .str "Maria"),
          ("MENSAJE", .str "Hola, Maria. Buen día. Mañana empieza otro mes de *X*: _HD_. ¿Desea continuar?")]]⟩ := by
  decide

/-! ### Claim C8 -/

/-- C8: the Cleaner fails with EmptyInput on a zero-row input; on a
non-empty input missing some required columns it fails with MissingColumns
listing exactly the absent required names (the equations show the error is
returned directly, before any projection, parsing or filtering); in
particular a table lacking `DIAS` fails with MissingColumns ["DIAS"]. -/
theorem c8_precondition_errors (df : DataFrame) (desired : List String) :
    (df.rows = [] → clean_data df desired = .error .emptyInput) ∧
    (df.rows ≠ [] → df.columns ≠ [] →
      desired.filter (fun c => decide (c ∉ df.columns)) ≠ [] →
      clean_data df desired =
        .error (.missingColumns
          (desired.filter (fun c => decide (c ∉ df.columns))))) ∧
    clean_data noDiasDF DESIRED_COLUMNS = .error (.missingColumns ["DIAS"]) := by
  refine ⟨?_, ?_, by decide⟩
  · intro hrows
    rw [clean_data_def, cleanPrefilter]
    rw [if_pos (show DataFrame.empty df = true by
      simp [DataFrame.empty, hrows])]
    rfl
  · intro hr hc hm
    rw [clean_data_def, cleanPrefilter]
    rw [if_neg (show ¬ DataFrame.empty df = true by
      simp [DataFrame.empty, List.isEmpty_iff, hr, hc])]
    rw [if_pos (show ¬ (desired.filter
        (fun c => decide (c ∉ df.columns))).isEmpty = true by
      simpa [List.isEmpty_iff] using hm)]
    rfl

/-- C8 witness: a zero-row frame fails with EmptyInput, and the frame
without `DIAS` fails with the MissingColumns error listing it. -/
theorem c8_precondition_errors_witness :
    clean_data (⟨sampleColumns, []⟩ : DataFrame) DESIRED_COLUMNS =
      .error .emptyInput ∧
    clean_data noDiasDF DESIRED_COLUMNS =
      .error (.missingColumns (DESIRED_COLUMNS.filter
        (fun c => decide (c ∉ noDiasDF.columns)))) :=
  ⟨(c8_precondition_errors ⟨sampleColumns, []⟩ DESIRED_COLUMNS).1 rfl,
   (c8_precondition_errors noDiasDF DESIRED_COLUMNS).2.1
     (by decide) (by decide) (by decide)⟩

/-! ### Claim C7 -/

/-- A cell passes the amount conversion unless it is non-empty text whose
dollar-stripped remainder fails to parse. -/
theorem valorOk_valorPre_false_iff (v : Value) :
    valorOk (valorPre v) = false ↔
      ∃ s, v = .str s ∧ s ≠ "" ∧ parseDecimal (stripDollars s) = none := by
  cases v with
  | str s =>
      by_cases hs : s = ""
      · subst hs
        have h1 : valorOk (valorPre (.str "")) = true := rfl
        rw [h1]
        constructor
        · intro h
          cases h
        · rintro ⟨t, ht, hne, -⟩
          exact absurd (Value.str.inj ht).symm hne
      · have h1 : valorPre (.str s) = .str (stripDollars s) := by
          simp [valorPre, emptyToNA, hs]
        rw [h1]
        constructor
        · intro h
          cases hp : parseDecimal (stripDollars s) with
          | none => exact ⟨s, rfl, hs, hp⟩
          | some q =>
              rw [valorOk] at h
              rw [hp] at h
              cases h
        · rintro ⟨t, ht, -, hpn⟩
          cases Value.str.inj ht
          rw [valorOk, hpn]
          rfl
  | num q =>
      constructor
      · intro h
        exact Bool.noConfusion (show true = false from h)
      · rintro ⟨s, hs, -, -⟩
        exact Value.noConfusion hs
  | bool b =>
      constructor
      · intro h
        exact Bool.noConfusion (show true = false from h)
      · rintro ⟨s, hs, -, -⟩
        exact Value.noConfusion hs
  | na =>
      constructor
      · intro h
        exact Bool.noConfusion (show true = false from h)
      · rintro ⟨s, hs, -, -⟩
        exact Value.noConfusion hs

/-- C7 (amended): on a non-empty input with all required columns, the
Cleaner fails with InvalidNumeric exactly when some row's amount is
non-empty text that fails to parse after removing every dollar sign; an
empty amount text becomes missing and the cleaned row then fails the
`amount > 0` filter (it is dropped, not an error). -/
theorem c7_amended (df : DataFrame) (h1 : df.rows ≠ [])
    (h2 : ∀ c ∈ DESIRED_COLUMNS, c ∈ df.columns) :
    (clean_data df DESIRED_COLUMNS = .error .invalidNumeric ↔
      ∃ r ∈ df.rows, ∃ s, r.cell "VALOR" = .str s ∧ s ≠ "" ∧
        parseDecimal (stripDollars s) = none) ∧
    ∀ r : Row, r.cell "VALOR" = .str "" → maskRow (cleanRowFun r) = false := by
  constructor
  · have hne : DataFrame.empty df = false := by
      have hcols : df.columns ≠ [] := List.ne_nil_of_mem (h2 "WSP" (by decide))
      simp [DataFrame.empty, List.isEmpty_iff, h1, hcols]
    have hmiss : (DESIRED_COLUMNS.filter
        (fun c => decide (c ∉ df.columns))).isEmpty = true := by
      rw [List.isEmpty_iff, List.filter_eq_nil_iff]
      intro c hc
      simp only [decide_eq_true_eq, Decidable.not_not]
      exact h2 c hc
    rw [clean_data_def, cleanPrefilter_desired, hne]
    rw [if_neg (by simp)]
    rw [if_neg (not_not_intro hmiss)]
    by_cases h4 : df.rows.all (fun r => valorOk (valorPre (r.cell "VALOR")))
    · rw [if_pos h4]
      constructor
      · intro hcd
        rw [except_ok_bind, filterStage] at hcd
        rw [if_pos (show ("VALOR" ∈ cleanedColumns ∧ "CORTE" ∈ cleanedColumns)
          from by decide)] at hcd
        cases hcd
      · rintro ⟨r, hr, t, hcell, ht, hpn⟩
        have hall := (List.all_eq_true.1 h4) r hr
        have hbad := (valorOk_valorPre_false_iff (r.cell "VALOR")).2
          ⟨t, hcell, ht, hpn⟩
        rw [hall] at hbad
        cases hbad
    · rw [if_neg h4, except_error_bind]
      constructor
      · intro _
        have hex : ∃ r ∈ df.rows,
            valorOk (valorPre (r.cell "VALOR")) = false := by
          by_contra hno
          apply h4
          rw [List.all_eq_true]
          intro r hr
          rcases Bool.eq_false_or_eq_true
            (valorOk (valorPre (r.cell "VALOR"))) with ht | hf
          · exact ht
          · exact absurd ⟨r, hr, hf⟩ hno
        rcases hex with ⟨r, hr, hf⟩
        rcases (valorOk_valorPre_false_iff _).1 hf with ⟨t, hcell, ht, hpn⟩
        exact ⟨r, hr, t, hcell, ht, hpn⟩
      · intro _
        rfl
  · intro r hcell
    have hv : Row.cell (cleanRowFun r) "VALOR" =
        valorVal (valorPre (r.cell "VALOR")) := rfl
    rw [maskRow, hv, hcell]
    rfl

/-- C7 witness: the amended equivalence instantiated on the frame whose
amount text is "1$" (it parses after dollar removal, so no error), plus
the empty-amount drop at a concrete row. -/
theorem c7_amended_witness :
    (clean_data trailingDollarDF DESIRED_COLUMNS = .error .invalidNumeric ↔
      ∃ r ∈ trailingDollarDF.rows, ∃ s, r.cell "VALOR" = .str s ∧ s ≠ "" ∧
        parseDecimal (stripDollars s) = none) ∧
    ∀ r : Row, r.cell "VALOR" = .str "" → maskRow (cleanRowFun r) = false :=
  c7_amended trailingDollarDF (by decide) (by decide)

/-- Modelled from the spec: "strip a leading currency symbol; parse
remainder as a decimal number" — removes one leading `'$'` only, in
contrast to the source's removal of every `'$'`. -/
def stripLeadingDollar (s : String) : String :=
  match s.data with
  | '$' :: rest => ⟨rest⟩
  | _ => s

/-- C7 counterexample: for the amount text "1$" the spec's parse (leading
dollar stripped, remainder parsed) fails, so the claim requires an
InvalidNumeric failure, but `clean_data` succeeds and even keeps the row
(the code removes every dollar sign and parses "1"). -/
theorem c7_counterexample :
    parseDecimal (stripLeadingDollar "1$") = none ∧
    clean_data trailingDollarDF DESIRED_COLUMNS =
      .ok ⟨["VENDEDOR", "PLATAFORMA", "CORTE", "CLIENTE", "PANTALLA", "DIAS", "TELEFONO"],
        [[("VENDEDOR", .str "AB"), ("PLATAFORMA", .str "X"), ("CORTE", .bool false),
          ("CLIENTE", .str "Maria Lopez"), ("PANTALLA", .str "HD"),
          ("DIAS", .str "1"), ("TELEFONO", .str "+57 3001234567")]]⟩ := by
  constructor
  · decide
  · decide

/-! ### Claim C4 -/

/-- C4 counterexample: with the unrecognized cut-flag literal "yes" (and a
positive amount), `clean_data` does not fail with InvalidBoolean — it
succeeds, silently dropping the row. -/
theorem c4_counterexample :
    clean_data corteYesDF DESIRED_COLUMNS =
      .ok ⟨["VENDEDOR", "PLATAFORMA", "CORTE", "CLIENTE", "PANTALLA", "DIAS", "TELEFONO"],
        []⟩ := by
  decide

/-- C4 (amended): the cut-flag cell map sends the exact text "TRUE" to
true, "FALSE" to false, empty/missing to false, and every other literal to
missing-then-cast-to-true — so such rows are dropped by the cut filter
rather than raising; `clean_data` never fails with InvalidBoolean (the
handler is dead code). -/
theorem c4_amended :
    corteCell (.str "TRUE") = .bool true ∧
    corteCell (.str "FALSE") = .bool false ∧
    corteCell (.str "") = .bool false ∧
    corteCell .na = .bool false ∧
    (∀ s : String, s ≠ "TRUE" → s ≠ "FALSE" → s ≠ "" →
      corteCell (.str s) = .bool true) ∧
    (∀ r : Row, r.lookup "CORTE" = some (.bool true) → maskRow r = false) ∧
    (∀ (df : DataFrame) (desired : List String),
      clean_data df desired ≠ .error .invalidBoolean) := by
  refine ⟨rfl, rfl, rfl, rfl, ?_, ?_, ?_⟩
  · intro s h1 h2 h3
    have he : emptyToNA (.str s) = .str s := by
      simp [emptyToNA, h3]
    have hme : corteCell (.str s) =
        if s = "TRUE" then Value.bool true
        else if s = "FALSE" then Value.bool false else Value.bool true := by
      rw [corteCell, he]
    rw [hme, if_neg h1, if_neg h2]
  · intro r hc
    exact maskRow_of_corte_true hc
  · intro df desired
    exact clean_data_not_invalidBoolean df desired

/-- C4 witness: the cut-flag behaviour at the concrete literal "yes" and
the concrete "yes"-flagged frame. -/
theorem c4_amended_witness :
    corteCell (.str "yes") = .bool true ∧
    maskRow [("CORTE", Value.bool true)] = false ∧
    clean_data corteYesDF DESIRED_COLUMNS ≠ .error .invalidBoolean :=
  ⟨c4_amended.2.2.2.2.1 "yes" (by decide) (by decide) (by decide),
   c4_amended.2.2.2.2.2.1 [("CORTE", Value.bool true)] (by decide),
   c4_amended.2.2.2.2.2.2 corteYesDF DESIRED_COLUMNS⟩


/-! ### Claim C9 -/

/-- C9: the Phone Composer fails with a missing-columns error (and
produces nothing else) when either source field is absent; when both are
present it deterministically returns the frame in which the two fields are
replaced by the single `TELEFONO` field holding code, one space, and
number (both coerced to text), every other field untouched. -/
theorem c9_phone_composer (df : DataFrame) :
    (("INDICATIVO" ∉ df.columns ∨ "CONTACTO" ∉ df.columns) →
      ∃ l, l ≠ [] ∧ add_phone_column df = .error (.missingColumns l)) ∧
    ("INDICATIVO" ∈ df.columns → "CONTACTO" ∈ df.columns →
      ∃ out, add_phone_column df = .ok out ∧
        "INDICATIVO" ∉ out.columns ∧ "CONTACTO" ∉ out.columns ∧
        "TELEFONO" ∈ out.columns ∧
        List.Forall₂ (fun r rOut : Row =>
          rOut.lookup "TELEFONO" = some (.str (Value.pyStr (r.cell "INDICATIVO") ++
            " " ++ Value.pyStr (r.cell "CONTACTO"))) ∧
          rOut.lookup "INDICATIVO" = none ∧ rOut.lookup "CONTACTO" = none ∧
          ∀ c, c ≠ "INDICATIVO" → c ≠ "CONTACTO" → c ≠ "TELEFONO" →
            rOut.lookup c = r.lookup c) df.rows out.rows) := by
  constructor
  · intro h
    have hne : (["INDICATIVO", "CONTACTO"].filter
        (fun c => decide (c ∉ df.columns))) ≠ [] := by
      intro h0
      rw [List.filter_eq_nil_iff] at h0
      rcases h with h | h
      · exact h (by simpa using h0 "INDICATIVO" (by decide))
      · exact h (by simpa using h0 "CONTACTO" (by decide))
    refine ⟨_, hne, ?_⟩
    rw [add_phone_column,
      if_pos (show ¬ (["INDICATIVO", "CONTACTO"].filter
        (fun c => decide (c ∉ df.columns))).isEmpty = true by
        simpa [List.isEmpty_iff] using hne)]
  · intro hI hC
    have hmiss : (["INDICATIVO", "CONTACTO"].filter
        (fun c => decide (c ∉ df.columns))) = [] := by
      rw [List.filter_eq_nil_iff]
      intro c hc
      rcases List.mem_cons.1 hc with rfl | hc2
      · simp [hI]
      · rw [List.mem_singleton.1 hc2]
        simp [hC]
    rw [add_phone_column,
      if_neg (not_not_intro (by rw [hmiss]; rfl))]
    refine ⟨_, rfl, ?_, ?_, ?_, ?_⟩
    · simp [DataFrame.dropCols, DataFrame.setCol]
    · simp [DataFrame.dropCols, DataFrame.setCol]
    · by_cases ht : "TELEFONO" ∈ df.columns <;>
        simp [DataFrame.dropCols, DataFrame.setCol, ht, List.mem_filter]
    · rw [DataFrame.dropCols, DataFrame.setCol, DataFrame.rows_mk,
        DataFrame.rows_mk, List.map_map, List.forall₂_map_right_iff,
        List.forall₂_same]
      intro r _
      refine ⟨?_, ?_, ?_, ?_⟩
      · rw [Function.comp_apply,
          Row.lookup_dropCells_not_mem _ _ _ (by decide),
          Row.lookup_setCell_self]
      · exact Row.lookup_dropCells_mem _ _ _ (by decide)
      · exact Row.lookup_dropCells_mem _ _ _ (by decide)
      · intro c hc1 hc2 hc3
        rw [Function.comp_apply,
          Row.lookup_dropCells_not_mem _ _ _ (by simp [hc1, hc2]),
          Row.lookup_setCell_ne _ _ _ _ hc3]

/-- C9 witness: the Phone Composer on the spec round-trip frame. -/
theorem c9_phone_composer_witness :
    ∃ out, add_phone_column sampleDF = .ok out ∧
      "INDICATIVO" ∉ out.columns ∧ "CONTACTO" ∉ out.columns ∧
      "TELEFONO" ∈ out.columns ∧
      List.Forall₂ (fun r rOut : Row =>
        rOut.lookup "TELEFONO" = some (.str (Value.pyStr (r.cell "INDICATIVO") ++
          " " ++ Value.pyStr (r.cell "CONTACTO"))) ∧
        rOut.lookup "INDICATIVO" = none ∧ rOut.lookup "CONTACTO" = none ∧
        ∀ c, c ≠ "INDICATIVO" → c ≠ "CONTACTO" → c ≠ "TELEFONO" →
          rOut.lookup c = r.lookup c) sampleDF.rows out.rows :=
  (c9_phone_composer sampleDF).2 (by decide) (by decide)

/-! ### Claim C10 -/

/-- A frame holding only a customer column (no SERVICIO). -/
def clienteOnlyDF : DataFrame := ⟨["CLIENTE"], [[("CLIENTE", .str "Ana")]]⟩

/-- C10 counterexample: `add_message_column` does not succeed on every
table that contains the customer column — without a `SERVICIO` column the
guarded `SERVICIO` access raises (wrapped `KeyError`), although `CLIENTE`
is present. -/
theorem c10_counterexample :
    "CLIENTE" ∈ clienteOnlyDF.columns ∧
    add_message_column clienteOnlyDF "Hoy" = .error .keyError := by
  constructor
  · decide
  · decide

/-- C10 (amended): on every table containing both the customer and the
services columns, message composition never fails on row content: it
succeeds, and a row whose customer text is empty (no whitespace-delimited
token) gets a missing first name and hence a missing message instead of an
error; a table without the customer column fails with the single-column
MissingColumn error. -/
theorem c10_amended (df : DataFrame) (day : String)
    (h1 : "CLIENTE" ∈ df.columns) (h2 : "SERVICIO" ∈ df.columns) :
    (∃ out, add_message_column df day = .ok out ∧
      List.Forall₂ (fun r rOut : Row =>
        r.cell "CLIENTE" = .str "" →
          rOut.lookup "NOMBRE" = some .na ∧ rOut.lookup "MENSAJE" = some .na)
        df.rows out.rows) ∧
    ∀ d : DataFrame, "CLIENTE" ∉ d.columns →
      add_message_column d day = .error (.missingColumn "CLIENTE") := by
  constructor
  · rw [add_message_column, if_neg (not_not_intro h1)]
    have hserv : "SERVICIO" ∈ (df.setCol "NOMBRE"
        (fun r => firstToken (r.cell "CLIENTE"))).columns := by
      by_cases hn : "NOMBRE" ∈ df.columns <;>
        simp [DataFrame.setCol, hn, h2]
    rw [if_neg (not_not_intro hserv)]
    refine ⟨_, rfl, ?_⟩
    rw [DataFrame.setCol, DataFrame.setCol, DataFrame.rows_mk,
      DataFrame.rows_mk, List.map_map, List.forall₂_map_right_iff,
      List.forall₂_same]
    intro r _ hcl
    have hnom : (r.setCell "NOMBRE" (firstToken (r.cell "CLIENTE"))).cell
        "NOMBRE" = .na := by
      rw [Row.cell_setCell_self, hcl]
      rfl
    constructor
    · rw [Function.comp_apply,
        Row.lookup_setCell_ne _ _ _ _ (by decide),
        Row.lookup_setCell_self, hcl]
      rfl
    · rw [Function.comp_apply, Row.lookup_setCell_self]
      refine congrArg some ?_
      rw [concatVals, hnom]
      rfl
  · intro d hd
    rw [add_message_column, if_pos hd]

/-- A grouped frame whose single row has an empty customer text. -/
def emptyNameDF : DataFrame :=
  ⟨["CLIENTE", "SERVICIO"],
   [[("CLIENTE", .str ""), ("SERVICIO", .str "*X*: _HD_")]]⟩

/-- C10 witness: message composition on the empty-customer frame. -/
theorem c10_amended_witness :
    (∃ out, add_message_column emptyNameDF "Hoy" = .ok out ∧
      List.Forall₂ (fun r rOut : Row =>
        r.cell "CLIENTE" = .str "" →
          rOut.lookup "NOMBRE" = some .na ∧ rOut.lookup "MENSAJE" = some .na)
        emptyNameDF.rows out.rows) ∧
    ∀ d : DataFrame, "CLIENTE" ∉ d.columns →
      add_message_column d "Hoy" = .error (.missingColumn "CLIENTE") :=
  c10_amended emptyNameDF "Hoy" (by decide) (by decide)


/-! ### Claim C6 -/

theorem dictInsert_fst (m : List (Value × DataFrame)) (k : Value)
    (v : DataFrame) :
    (dictInsert m k v).map Prod.fst =
      if k ∈ m.map Prod.fst then m.map Prod.fst else m.map Prod.fst ++ [k] := by
  by_cases h : m.any (fun p => p.1 = k)
  · have hk : k ∈ m.map Prod.fst := by
      rcases List.any_eq_true.1 h with ⟨p, hp, hpk⟩
      simp only [decide_eq_true_eq] at hpk
      exact hpk ▸ List.mem_map_of_mem Prod.fst hp
    rw [dictInsert, if_pos h, if_pos hk, List.map_map]
    refine List.map_congr_left (fun q _ => ?_)
    by_cases hq : q.1 = k <;> simp [hq]
  · have hk : k ∉ m.map Prod.fst := by
      intro hc
      rcases List.mem_map.1 hc with ⟨p, hp, hpk⟩
      exact absurd (List.any_eq_true.2 ⟨p, hp, by simp [hpk]⟩) h
    rw [dictInsert, if_neg h, if_neg hk]
    simp

theorem dictFold_fst (f : Row → Value) (g : Row → DataFrame) :
    ∀ (rows : List Row) (acc : List (Value × DataFrame)),
      ((rows.foldl (fun m r => dictInsert m (f r) (g r)) acc).map Prod.fst)
        = acc.map Prod.fst ++ firstSeenAux (acc.map Prod.fst) (rows.map f) := by
  intro rows
  induction rows with
  | nil => intro acc; simp [firstSeenAux]
  | cons r rows ih =>
      intro acc
      rw [List.foldl_cons, ih (dictInsert acc (f r) (g r)), dictInsert_fst,
        List.map_cons]
      by_cases hm : f r ∈ acc.map Prod.fst
      · rw [if_pos hm]
        simp only [firstSeenAux]
        rw [if_pos hm]
        refine congrArg _ (firstSeenAux_congr (fun y => ?_) _)
        constructor
        · exact fun hy => List.mem_cons_of_mem _ hy
        · intro hy
          rcases List.mem_cons.1 hy with rfl | hy2
          · exact hm
          · exact hy2
      · rw [if_neg hm]
        simp only [firstSeenAux]
        rw [if_neg hm, List.append_assoc]
        refine congrArg _ ?_
        rw [List.singleton_append]
        refine congrArg _ (firstSeenAux_congr (fun y => ?_) _)
        simp only [List.mem_append, List.mem_cons, List.not_mem_nil, or_false]
        exact or_comm

theorem dictFold_entries (f : Row → Value) (g : Row → DataFrame)
    (S : List Row) :
    ∀ (rows : List Row) (acc : List (Value × DataFrame)),
      (∀ r ∈ rows, r ∈ S) →
      (∀ p ∈ acc, ∃ s ∈ S, f s = p.1 ∧ p.2 = g s) →
      ∀ p ∈ rows.foldl (fun m r => dictInsert m (f r) (g r)) acc,
        ∃ s ∈ S, f s = p.1 ∧ p.2 = g s := by
  intro rows
  induction rows with
  | nil => intro acc _ hacc; simpa using hacc
  | cons r rows ih =>
      intro acc hS hacc
      rw [List.foldl_cons]
      refine ih _ (fun x hx => hS x (List.mem_cons_of_mem _ hx)) ?_
      intro p hp
      have hrS : r ∈ S := hS r (List.mem_cons_self _ _)
      by_cases h : acc.any (fun q => q.1 = f r)
      · rw [dictInsert, if_pos h] at hp
        rcases List.mem_map.1 hp with ⟨q, hq, hqp⟩
        by_cases hqk : q.1 = f r
        · rw [if_pos hqk] at hqp
          subst hqp
          exact ⟨r, hrS, hqk.symm, rfl⟩
        · rw [if_neg hqk] at hqp
          subst hqp
          exact hacc q hq
      · rw [dictInsert, if_neg h] at hp
        rcases List.mem_append.1 hp with hp2 | hp2
        · exact hacc p hp2
        · rw [List.mem_singleton.1 hp2]
          exact ⟨r, hrS, rfl, rfl⟩

/-- Inversion of a successful run of the by-owner-type partitioner. -/
theorem filter_user_type_ok {df_data df_user : DataFrame}
    {user_type : String} {m : List (Value × DataFrame)}
    (h : filter_data_by_user_type df_data df_user user_type = .ok m) :
    m = df_user.rows.foldl
      (fun m seller => dictInsert m (seller.cell "SIGLAS")
        ⟨df_data.columns,
         df_data.rows.filter (fun r =>
           Value.pyEq
             (r.cell (if user_type = "seller" then "VENDEDOR" else "TELEFONO"))
             (seller.cell (if user_type = "seller" then "SIGLAS" else "TELEFONO")))⟩)
      [] := by
  rw [filter_data_by_user_type] at h
  by_cases h1 : user_type = "seller" ∨ user_type = "reseller"
  · rw [if_neg (not_not_intro h1)] at h
    by_cases h2 : (if user_type = "seller" then "VENDEDOR" else "TELEFONO") ∉
        df_data.columns
    · rw [if_pos h2] at h
      cases h
    · rw [if_neg h2] at h
      by_cases h3 : (if user_type = "seller" then "SIGLAS" else "TELEFONO") ∉
          df_user.columns
      · rw [if_pos h3] at h
        cases h
      · rw [if_neg h3] at h
        by_cases h4 : ¬ df_user.rows.isEmpty ∧ "SIGLAS" ∉ df_user.columns
        · rw [if_pos h4] at h
          cases h
        · rw [if_neg h4] at h
          exact (Except.ok.inj h).symm
  · rw [if_pos h1] at h
    cases h

/-- C6 (amended): every successful run of the by-owner-type partitioner
yields one entry per distinct `SIGLAS` value of the reference rows, keyed
in first-seen order (so duplicate reference keys collapse into a single
entry instead of one entry per reference row); every entry's table is the
cleaned-row subset matching some reference row with that key — including
the empty subset when nothing matches. -/
theorem c6_amended (df_data df_user : DataFrame) (user_type : String)
    (m : List (Value × DataFrame))
    (h : filter_data_by_user_type df_data df_user user_type = .ok m) :
    m.map Prod.fst =
      firstSeen (df_user.rows.map (fun r => r.cell "SIGLAS")) ∧
    (m.map Prod.fst).Nodup ∧
    ∀ p ∈ m, ∃ seller ∈ df_user.rows, seller.cell "SIGLAS" = p.1 ∧
      p.2 = ⟨df_data.columns,
        df_data.rows.filter (fun r =>
          Value.pyEq
            (r.cell (if user_type = "seller" then "VENDEDOR" else "TELEFONO"))
            (seller.cell (if user_type = "seller" then "SIGLAS" else "TELEFONO")))⟩ := by
  have hm := filter_user_type_ok h
  subst hm
  refine ⟨?_, ?_, ?_⟩
  · simpa [firstSeen] using dictFold_fst (fun r => r.cell "SIGLAS") _ df_user.rows []
  · rw [show ((df_user.rows.foldl _ []).map Prod.fst =
        firstSeen (df_user.rows.map (fun r => r.cell "SIGLAS"))) from
      by simpa [firstSeen] using
        dictFold_fst (fun r => r.cell "SIGLAS") _ df_user.rows []]
    exact firstSeen_nodup _
  · exact dictFold_entries (fun r => r.cell "SIGLAS") _ df_user.rows
      df_user.rows [] (fun r hr => hr) (by simp)

/-- A reference frame with two rows sharing the `SIGLAS` value "A". -/
def dupSiglasRef : DataFrame :=
  ⟨["SIGLAS"], [[("SIGLAS", .str "A")], [("SIGLAS", .str "A")]]⟩

/-- A cleaned frame carrying only the `VENDEDOR` column and no rows. -/
def vendorOnlyDF : DataFrame := ⟨["VENDEDOR"], []⟩

/-- C6 counterexample: with two reference rows sharing one `SIGLAS` value,
the partitioner succeeds but returns a single mapping entry — the keys are
not in bijection with the reference rows. -/
theorem c6_counterexample :
    filter_data_by_user_type vendorOnlyDF dupSiglasRef "seller" =
      .ok [(Value.str "A", ⟨["VENDEDOR"], []⟩)] ∧
    dupSiglasRef.rows.length = 2 := by
  constructor
  · decide
  · decide

/-- A reference frame with the two distinct codes "AB" and "CD". -/
def twoSellersRef : DataFrame :=
  ⟨["SIGLAS"], [[("SIGLAS", .str "AB")], [("SIGLAS", .str "CD")]]⟩

/-- C6 witness: the amended cardinality invariant on the cleaned sample
frame and a two-seller reference table (the "CD" entry is empty). -/
theorem c6_amended_witness :
    ([(Value.str "AB", DataFrame.mk sampleCleaned.columns sampleCleaned.rows),
      (Value.str "CD", DataFrame.mk sampleCleaned.columns [])].map Prod.fst =
        firstSeen (twoSellersRef.rows.map (fun r => r.cell "SIGLAS"))) ∧
    (([(Value.str "AB", DataFrame.mk sampleCleaned.columns sampleCleaned.rows),
      (Value.str "CD", DataFrame.mk sampleCleaned.columns [])].map
        Prod.fst).Nodup) ∧
    ∀ p ∈ [(Value.str "AB", DataFrame.mk sampleCleaned.columns sampleCleaned.rows),
      (Value.str "CD", DataFrame.mk sampleCleaned.columns [])],
      ∃ seller ∈ twoSellersRef.rows, seller.cell "SIGLAS" = p.1 ∧
        p.2 = ⟨sampleCleaned.columns,
          sampleCleaned.rows.filter (fun r =>
            Value.pyEq
              (r.cell (if "seller" = "seller" then "VENDEDOR" else "TELEFONO"))
              (seller.cell (if "seller" = "seller" then "SIGLAS" else "TELEFONO")))⟩ :=
  c6_amended sampleCleaned twoSellersRef "seller"
    [(Value.str "AB", DataFrame.mk sampleCleaned.columns sampleCleaned.rows),
     (Value.str "CD", DataFrame.mk sampleCleaned.columns [])] (by decide)


/-! ### Claim C5 -/

/-- The column list of every per-owner table after aggregation and message
composition, and hence of the concatenated final table. -/
def finalColumnsSix : List String :=
  ["VENDEDOR", "CLIENTE", "TELEFONO", "SERVICIO", "NOMBRE", "MENSAJE"]

/-- The rows of the intermediate `df_grouped`-with-`SERVICIO` frame inside
`process_data`. -/
def aggMidRows (df : DataFrame) : List Row :=
  ((sortGroups (groupPairs (rowKey key4cols) df.rows)).map aggRow1).map
    (fun r => r.setCell "SERVICIO" (servCell r))

/-- Inversion of a successful `process_data` run. -/
theorem process_data_ok {df out : DataFrame} (h : process_data df = .ok out) :
    out = ⟨key3cols ++ ["SERVICIO"],
      (sortGroups (groupPairs (rowKey key3cols) (aggMidRows df))).map aggRow2⟩ := by
  rw [process_data] at h
  by_cases hm : ¬ (["VENDEDOR", "CLIENTE", "PLATAFORMA", "TELEFONO", "PANTALLA"].filter
      (fun c => decide (c ∉ df.columns))).isEmpty
  · rw [if_pos hm] at h
    cases h
  · rw [if_neg hm] at h
    exact (Except.ok.inj h).symm

/-- Keys of the second grouping of `process_data` are three-value tuples. -/
theorem groupPairs_key_length (cols : List String) (rows : List Row) :
    ∀ p ∈ groupPairs (rowKey cols) rows, p.1.length = cols.length := by
  intro p hp
  have hk : p.1 ∈ (groupPairs (rowKey cols) rows).map Prod.fst :=
    List.mem_map_of_mem Prod.fst hp
  rw [groupPairs_fst] at hk
  rcases List.mem_map.1 (mem_firstSeen.1 hk) with ⟨r, -, hr⟩
  rw [← hr, rowKey, List.length_map]

/-- Shape of the `process_data` output: exactly the four aggregate
fields, per record and in the header. -/
theorem process_data_shape {df out : DataFrame} (h : process_data df = .ok out) :
    out.columns = ["VENDEDOR", "CLIENTE", "TELEFONO", "SERVICIO"] ∧
    ∀ r ∈ out.rows, r.map Prod.fst = ["VENDEDOR", "CLIENTE", "TELEFONO", "SERVICIO"] := by
  rw [process_data_ok h]
  refine ⟨rfl, ?_⟩
  intro r hr
  rw [DataFrame.rows_mk] at hr
  rcases List.mem_map.1 hr with ⟨p, hp, rfl⟩
  have hp2 : p ∈ groupPairs (rowKey key3cols) (aggMidRows df) :=
    (sortGroups_perm _).mem_iff.1 hp
  have hlen : p.1.length = 3 := groupPairs_key_length key3cols _ p hp2
  rw [aggRow2, List.map_append, List.map_fst_zip _ _ (by rw [hlen]; decide)]
  rfl

/-- Shape of `add_message_column` on a `process_data`-shaped table. -/
theorem add_message_shape {df out : DataFrame} {day : String}
    (h : add_message_column df day = .ok out)
    (hc : df.columns = ["VENDEDOR", "CLIENTE", "TELEFONO", "SERVICIO"])
    (hr : ∀ r ∈ df.rows,
      r.map Prod.fst = ["VENDEDOR", "CLIENTE", "TELEFONO", "SERVICIO"]) :
    out.columns = finalColumnsSix ∧
    ∀ r ∈ out.rows, r.map Prod.fst = finalColumnsSix := by
  rw [add_message_column] at h
  rw [if_neg (not_not_intro (show "CLIENTE" ∈ df.columns by rw [hc]; decide))] at h
  have hn : "NOMBRE" ∉ df.columns := by
    rw [hc]
    decide
  have hserv : "SERVICIO" ∈ (df.setCol "NOMBRE"
      (fun r => firstToken (r.cell "CLIENTE"))).columns := by
    rw [DataFrame.setCol, DataFrame.columns_mk, if_neg hn, hc]
    decide
  rw [if_neg (not_not_intro hserv)] at h
  have hout := (Except.ok.inj h).symm
  subst hout
  constructor
  · rw [DataFrame.setCol, DataFrame.setCol, DataFrame.columns_mk,
      DataFrame.columns_mk, if_neg hn, hc]
    rw [if_neg (by decide)]
    rfl
  · intro r hrm
    rw [DataFrame.setCol, DataFrame.setCol, DataFrame.rows_mk,
      DataFrame.rows_mk, List.map_map] at hrm
    rcases List.mem_map.1 hrm with ⟨r0, hr0, rfl⟩
    rw [Function.comp_apply, Row.fst_setCell, Row.fst_setCell, hr r0 hr0]
    rw [if_neg (by decide), if_neg (by decide)]
    rfl

theorem mapM_ok_forall {α β : Type} {f : α → Except PipeError β} :
    ∀ {l : List α} {l2 : List β}, l.mapM f = .ok l2 →
      ∀ y ∈ l2, ∃ x ∈ l, f x = .ok y := by
  intro l
  induction l with
  | nil =>
      intro l2 h y hy
      rw [List.mapM_nil] at h
      rw [← Except.ok.inj h] at hy
      cases hy
  | cons x xs ih =>
      intro l2 h y hy
      rw [List.mapM_cons] at h
      cases hf : f x with
      | error e =>
          rw [hf] at h
          cases h
      | ok b =>
          rw [hf, except_ok_bind] at h
          cases hrest : xs.mapM f with
          | error e =>
              rw [hrest] at h
              cases h
          | ok bs =>
              rw [hrest, except_ok_bind] at h
              rw [← Except.ok.inj h] at hy
              rcases List.mem_cons.1 hy with rfl | hy2
              · exact ⟨x, List.mem_cons_self _ _, hf⟩
              · rcases ih hrest y hy2 with ⟨x2, hx2, hfx2⟩
                exact ⟨x2, List.mem_cons_of_mem _ hx2, hfx2⟩

/-- Every table produced by the per-owner processing chain (day filter,
aggregation, message column) has the six-field shape. -/
theorem process_entry_shape {p y : Value × DataFrame} {idx msg : String}
    (h : (do
      let f ← filter_data_by_day p.2 idx
      let pr ← process_data f
      let m ← add_message_column pr msg
      pure (p.1, m) : Except PipeError (Value × DataFrame)) = .ok y) :
    y.2.columns = finalColumnsSix ∧
    ∀ r ∈ y.2.rows, r.map Prod.fst = finalColumnsSix := by
  cases hf : filter_data_by_day p.2 idx with
  | error e =>
      rw [hf, except_error_bind] at h
      cases h
  | ok fd =>
      rw [hf, except_ok_bind] at h
      cases hp : process_data fd with
      | error e =>
          rw [hp, except_error_bind] at h
          cases h
      | ok pr =>
          rw [hp, except_ok_bind] at h
          cases hm : add_message_column pr msg with
          | error e =>
              rw [hm, except_error_bind] at h
              cases h
          | ok m =>
              rw [hm, except_ok_bind] at h
              have hy : y = (p.1, m) := (Except.ok.inj h).symm
              subst hy
              rcases process_data_shape hp with ⟨hc, hr⟩
              exact add_message_shape hm hc hr

/-- Concatenating same-header tables keeps the header: the extra headers
contribute nothing new. -/
theorem concat_same_columns (dfs : List DataFrame) (L : List String)
    (hL : firstSeen L = L) (h : ∀ d ∈ dfs, d.columns = L) (hne : dfs ≠ []) :
    (concatDFs dfs).columns = L := by
  cases dfs with
  | nil => exact absurd rfl hne
  | cons d rest =>
      have hflat : ∀ x ∈ rest.flatMap (fun d => d.columns), x ∈ L := by
        intro x hx
        rcases List.mem_flatMap.1 hx with ⟨d2, hd2, hxd⟩
        rw [h d2 (List.mem_cons_of_mem _ hd2)] at hxd
        exact hxd
      show firstSeen ((d :: rest).flatMap (fun d => d.columns)) = L
      rw [List.flatMap_cons, h d (List.mem_cons_self _ _), firstSeen,
        firstSeenAux_append]
      have hnil : firstSeenAux (L.reverse ++ [])
          (rest.flatMap (fun d => d.columns)) = [] :=
        firstSeenAux_nil_of_subset
          (fun x hx => by simpa [List.mem_reverse] using hflat x hx)
      rw [hnil, List.append_nil]
      exact hL

/-- C5 (amended): every table returned by the pipeline entry point
carries, per record and in the header, exactly the six fields VENDEDOR,
CLIENTE, TELEFONO, SERVICIO, NOMBRE and MENSAJE — the aggregate `SERVICIO`
and first-name `NOMBRE` helper fields are never projected away. -/
theorem c5_amended (df df_sellers : DataFrame) (idx msg : String)
    (out : DataFrame) (h : get_info_core df df_sellers idx msg = .ok out) :
    out.columns = finalColumnsSix ∧
    ∀ r ∈ out.rows, r.map Prod.fst = finalColumnsSix := by
  rw [get_info_core] at h
  by_cases h0 : DataFrame.empty df
  · rw [if_pos h0] at h
    cases h
  · rw [if_neg h0] at h
    cases hcl : clean_data df DESIRED_COLUMNS with
    | error e =>
        rw [hcl, except_error_bind] at h
        cases h
    | ok cleaned =>
        rw [hcl, except_ok_bind] at h
        cases hby : filter_data_by_user_type cleaned df_sellers "seller" with
        | error e =>
            rw [hby, except_error_bind] at h
            cases h
        | ok byCust =>
            rw [hby, except_ok_bind] at h
            cases hpr : process_data_by_type byCust idx msg with
            | error e =>
                rw [hpr, except_error_bind] at h
                cases h
            | ok processed =>
                rw [hpr, except_ok_bind] at h
                simp only [] at h
                by_cases hres : (concatDFs (processed.map (fun p => p.2))).rows.isEmpty
                · rw [if_pos hres] at h
                  cases h
                · rw [if_neg hres] at h
                  have hout : out = concatDFs (processed.map (fun p => p.2)) :=
                    (Except.ok.inj h).symm
                  subst hout
                  have hshapes : ∀ d ∈ processed.map (fun p => p.2),
                      d.columns = finalColumnsSix ∧
                      ∀ r ∈ d.rows, r.map Prod.fst = finalColumnsSix := by
                    intro d hd
                    rcases List.mem_map.1 hd with ⟨y, hy, rfl⟩
                    rcases mapM_ok_forall hpr y hy with ⟨p, -, hfp⟩
                    exact process_entry_shape hfp
                  have hnonnil : processed.map (fun p => p.2) ≠ [] := by
                    intro hnil
                    apply hres
                    rw [concatDFs]
                    rw [hnil]
                    rfl
                  have hcols : (concatDFs (processed.map (fun p => p.2))).columns =
                      finalColumnsSix :=
                    concat_same_columns _ _ (by decide)
                      (fun d hd => (hshapes d hd).1) hnonnil
                  refine ⟨hcols, ?_⟩
                  intro r hrm
                  rcases List.mem_flatMap.1 hrm with ⟨d, hd, hrd⟩
                  rcases List.mem_map.1 hrd with ⟨r0, -, rfl⟩
                  have : (concatDFs (processed.map (fun p => p.2))).columns.map
                      (fun c => Prod.fst (c, r0.cell c)) =
                      (concatDFs (processed.map (fun p => p.2))).columns := by
                    exact List.map_congr_left (fun c _ => rfl) |>.trans (List.map_id _)
                  rw [List.map_map]
                  rw [show (Prod.fst ∘ fun c => (c, r0.cell c)) = id from rfl]
                  rw [List.map_id]
                  exact hcols

/-- The seller reference table of the witness run. -/
def sellersRef : DataFrame :=
  ⟨["NOMBRE", "SIGLAS", "TELEFONO"],
   [[("NOMBRE", .str "Ana B"), ("SIGLAS", .str "AB"), ("TELEFONO", .str "+57 1")]]⟩

/-- The final table of the witness pipeline run. -/
def finalSampleDF : DataFrame :=
  ⟨["VENDEDOR", "CLIENTE", "TELEFONO", "SERVICIO", "NOMBRE", "MENSAJE"],
   [[("VENDEDOR", .str "AB"), ("CLIENTE", .str "Maria Lopez"),
     ("TELEFONO", .str "+57 3001234567"), ("SERVICIO", .str "*X*: _HD_"),
     ("NOMBRE", .str "Maria"),
     ("MENSAJE", .str "Hola, Maria. Buen día. Mañana empieza otro mes de *X*: _HD_. ¿Desea continuar?")]]⟩

/-- C5 counterexample: the pipeline entry point returns records carrying
the extra `SERVICIO` (and `NOMBRE`) fields — not exactly the four fields
owner, customer, phone, message. -/
theorem c5_counterexample :
    get_info_core sampleDF sellersRef "1" "Mañana empieza" = .ok finalSampleDF ∧
    finalSampleDF.columns =
      ["VENDEDOR", "CLIENTE", "TELEFONO", "SERVICIO", "NOMBRE", "MENSAJE"] ∧
    (finalSampleDF.rows.headD []).lookup "SERVICIO" = some (.str "*X*: _HD_") ∧
    (finalSampleDF.rows.headD []).lookup "NOMBRE" = some (.str "Maria") := by
  refine ⟨by decide, rfl, rfl, rfl⟩

/-- C5 witness: the amended shape instantiated on the witness run. -/
theorem c5_amended_witness :
    finalSampleDF.columns = finalColumnsSix ∧
    ∀ r ∈ finalSampleDF.rows, r.map Prod.fst = finalColumnsSix :=
  c5_amended sampleDF sellersRef "1" "Mañana empieza" finalSampleDF (by decide)


/-! ### Claim C3 -/

/-- One row of the intermediate frame of `process_data` for the group `kg`
of the first `groupby`: the aggregated row with its `SERVICIO` label
attached. -/
def midRowOf (kg : List Value × List Row) : Row :=
  (aggRow1 kg).setCell "SERVICIO" (servCell (aggRow1 kg))

theorem aggMidRows_eq (df : DataFrame) :
    aggMidRows df =
      (sortGroups (groupPairs (rowKey key4cols) df.rows)).map midRowOf := by
  rw [aggMidRows, List.map_map]
  rfl

theorem midRow_key3 (v c p t : Value) (g : List Row) :
    rowKey key3cols (midRowOf ([v, c, p, t], g)) = [v, c, t] := rfl

theorem midRow_plat (v c p t : Value) (g : List Row) :
    (midRowOf ([v, c, p, t], g)).cell "PLATAFORMA" = p := rfl

theorem midRow_serv (v c p t : Value) (g : List Row) :
    (midRowOf ([v, c, p, t], g)).cell "SERVICIO" =
      concatVals [.str "*", p, .str "*: _",
        joinStrVals " & " (firstSeen (g.map (fun r => r.cell "PANTALLA"))),
        .str "_"] := rfl

theorem joinStrVals_str (sep : String) (vs : List Value)
    (h : ∀ v ∈ vs, v.isStr = true) :
    joinStrVals sep vs =
      Value.str (String.intercalate sep (vs.map Value.pyStr)) := by
  rw [joinStrVals, if_pos (List.all_eq_true.2 h)]

theorem concatVals_five (a b c d e : String) :
    concatVals [.str a, .str b, .str c, .str d, .str e] =
      .str (a ++ b ++ c ++ d ++ e) := rfl

theorem filter_of_map {α β : Type} (f : α → β) (p : β → Bool) (l : List α) :
    (l.map f).filter p = (l.filter (fun x => p (f x))).map f := by
  induction l with
  | nil => rfl
  | cons x xs ih =>
      by_cases hpx : p (f x) = true
      · simp [List.filter_cons, hpx, ih]
      · simp [List.filter_cons, hpx, ih]

/-- Lexicographic comparison of two four-part keys agreeing everywhere but
in the third slot reduces to the value comparison of that slot. -/
theorem keyLe_proj3 (v c p q t : Value) (hne : p ≠ q)
    (h : keyLe [v, c, p, t] [v, c, q, t] = true) : valueLe p q = true := by
  simpa [keyLe, hne] using h

/-- A group of the first `groupby` of `process_data` on an all-text frame:
its key is four text values, and the key cells, the `PLATAFORMA` cell and
the `SERVICIO` label of the corresponding intermediate row are determined
by the key and the rows of the frame carrying that key. -/
theorem S1_mem_char (df : DataFrame)
    (hstr : ∀ r ∈ df.rows, ∀ col ∈ ["VENDEDOR", "CLIENTE", "PLATAFORMA",
      "TELEFONO", "PANTALLA"], ∃ s, r.cell col = Value.str s)
    {kg : List Value × List Row}
    (h : kg ∈ sortGroups (groupPairs (rowKey key4cols) df.rows)) :
    ∃ sv sc sp st,
      kg.1 = [Value.str sv, Value.str sc, Value.str sp, Value.str st] ∧
      rowKey key3cols (midRowOf kg) = [Value.str sv, Value.str sc, Value.str st] ∧
      (midRowOf kg).cell "PLATAFORMA" = Value.str sp ∧
      (midRowOf kg).cell "SERVICIO" = Value.str ("*" ++ sp ++ "*: _" ++
        String.intercalate " & "
          ((firstSeen ((df.rows.filter (fun r0 =>
              decide (rowKey key4cols r0 =
                [Value.str sv, Value.str sc, Value.str sp, Value.str st]))).map
              (fun r0 => r0.cell "PANTALLA"))).map Value.pyStr) ++ "_") ∧
      ∃ r0 ∈ df.rows, rowKey key4cols r0 =
        [Value.str sv, Value.str sc, Value.str sp, Value.str st] := by
  have hg : kg ∈ groupPairs (rowKey key4cols) df.rows :=
    (sortGroups_perm _).mem_iff.1 h
  have hval : kg.2 = df.rows.filter (fun r => decide (rowKey key4cols r = kg.1)) :=
    groupPairs_val _ _ kg hg
  have hk : kg.1 ∈ (groupPairs (rowKey key4cols) df.rows).map Prod.fst :=
    List.mem_map_of_mem Prod.fst hg
  rw [groupPairs_fst] at hk
  rcases List.mem_map.1 (mem_firstSeen.1 hk) with ⟨r0, hr0, hkey⟩
  rcases hstr r0 hr0 "VENDEDOR" (by decide) with ⟨sv, hsv⟩
  rcases hstr r0 hr0 "CLIENTE" (by decide) with ⟨sc, hsc⟩
  rcases hstr r0 hr0 "PLATAFORMA" (by decide) with ⟨sp, hsp⟩
  rcases hstr r0 hr0 "TELEFONO" (by decide) with ⟨st, hst⟩
  have hk1 : kg.1 = [Value.str sv, Value.str sc, Value.str sp, Value.str st] := by
    rw [← hkey]
    show [r0.cell "VENDEDOR", r0.cell "CLIENTE", r0.cell "PLATAFORMA",
      r0.cell "TELEFONO"] = _
    rw [hsv, hsc, hsp, hst]
  have hkg : kg = ([Value.str sv, Value.str sc, Value.str sp, Value.str st], kg.2) := by
    rw [← hk1]
  refine ⟨sv, sc, sp, st, hk1, ?_, ?_, ?_, ⟨r0, hr0, by rw [hkey, hk1]⟩⟩
  · rw [hkg]
    exact midRow_key3 _ _ _ _ _
  · rw [hkg]
    exact midRow_plat _ _ _ _ _
  · have hjoin : joinStrVals " & "
        (firstSeen (kg.2.map (fun r => r.cell "PANTALLA"))) =
        Value.str (String.intercalate " & "
          ((firstSeen (kg.2.map (fun r => r.cell "PANTALLA"))).map Value.pyStr)) := by
      refine joinStrVals_str _ _ ?_
      intro v hv
      rcases List.mem_map.1 (mem_firstSeen.1 hv) with ⟨r1, hr1, rfl⟩
      have hr1d : r1 ∈ df.rows := by
        rw [hval] at hr1
        exact (List.mem_filter.1 hr1).1
      rcases hstr r1 hr1d "PANTALLA" (by decide) with ⟨s, hs⟩
      show (r1.cell "PANTALLA").isStr = true
      rw [hs]
      rfl
    rw [hkg, midRow_serv, hjoin, concatVals_five, hval, hk1]

/-- Membership in the subfamily of first-`groupby` groups that fall into
one group of the second `groupby` (same owner, customer and phone)
determines the platform slot of the key and the row's cells. -/
theorem S1f_mem_char (df : DataFrame)
    (hstr : ∀ r ∈ df.rows, ∀ col ∈ ["VENDEDOR", "CLIENTE", "PLATAFORMA",
      "TELEFONO", "PANTALLA"], ∃ s, r.cell col = Value.str s)
    (sv sc st : String) {kg : List Value × List Row}
    (h : kg ∈ (sortGroups (groupPairs (rowKey key4cols) df.rows)).filter
      (fun kg => decide (rowKey key3cols (midRowOf kg) =
        [Value.str sv, Value.str sc, Value.str st]))) :
    ∃ sp,
      kg.1 = [Value.str sv, Value.str sc, Value.str sp, Value.str st] ∧
      (midRowOf kg).cell "PLATAFORMA" = Value.str sp ∧
      (midRowOf kg).cell "SERVICIO" = Value.str ("*" ++ sp ++ "*: _" ++
        String.intercalate " & "
          ((firstSeen ((df.rows.filter (fun r0 =>
              decide (rowKey key4cols r0 =
                [Value.str sv, Value.str sc, Value.str sp, Value.str st]))).map
              (fun r0 => r0.cell "PANTALLA"))).map Value.pyStr) ++ "_") ∧
      ∃ r0 ∈ df.rows, rowKey key4cols r0 =
        [Value.str sv, Value.str sc, Value.str sp, Value.str st] := by
  obtain ⟨hS1, hcond⟩ := List.mem_filter.1 h
  rcases S1_mem_char df hstr hS1 with ⟨av, ac, ap, au, h1, h3, hplat, hserv, hex⟩
  have hcond2 : rowKey key3cols (midRowOf kg) =
      [Value.str sv, Value.str sc, Value.str st] := of_decide_eq_true hcond
  rw [h3] at hcond2
  simp only [List.cons.injEq, Value.str.injEq, and_true] at hcond2
  obtain ⟨rfl, rfl, rfl⟩ := hcond2
  exact ⟨ap, h1, hplat, hserv, hex⟩

theorem isStr_exists {v : Value} (h : v.isStr = true) : ∃ s, v = Value.str s := by
  cases v with
  | str s => exact ⟨s, rfl⟩
  | num q => cases h
  | bool b => cases h
  | na => cases h

/-- The C3 frame: one customer with platform "B" seen before platform "A". -/
def c3df : DataFrame :=
  ⟨["VENDEDOR", "CLIENTE", "PLATAFORMA", "TELEFONO", "PANTALLA"],
   [[("VENDEDOR", Value.str "V"), ("CLIENTE", Value.str "C"),
     ("PLATAFORMA", Value.str "B"), ("TELEFONO", Value.str "T"),
     ("PANTALLA", Value.str "s1")],
    [("VENDEDOR", Value.str "V"), ("CLIENTE", Value.str "C"),
     ("PLATAFORMA", Value.str "A"), ("TELEFONO", Value.str "T"),
     ("PANTALLA", Value.str "s2")]]⟩

/-- The single output row of `process_data` on the C3 frame. -/
def c3outRow : Row :=
  [("VENDEDOR", Value.str "V"), ("CLIENTE", Value.str "C"),
   ("TELEFONO", Value.str "T"),
   ("SERVICIO", Value.str "*A*: _s2_ ▪️ *B*: _s1_")]

/-- C3 counterexample: platform "B" occurs before platform "A" in the
input (second conjunct: the first-seen platform order is B, A), yet the
services string lists the "A" label first — the per-platform labels are
joined in sorted key order, not in first-occurrence order as claimed. -/
theorem c3_counterexample :
    process_data c3df =
      .ok ⟨["VENDEDOR", "CLIENTE", "TELEFONO", "SERVICIO"], [c3outRow]⟩ ∧
    firstSeen (c3df.rows.map (fun r => r.cell "PLATAFORMA")) =
      [Value.str "B", Value.str "A"] := by
  constructor
  · decide
  · decide

/-- C3 (amended): on an all-text aggregator input accepted by
`process_data`, every output row carries owner, customer and phone values
and a `SERVICIO` string that joins one label per platform of that
(owner, customer, phone) group with `" ▪️ "`; the platforms are listed in
strictly ascending key order (`groupby(sort=True)` sorts them — not in
first-occurrence order), they are exactly the platforms the group has in
the input, and each label is `*platform*: _screens_` where the screens
are the distinct `PANTALLA` values of the (owner, customer, platform,
phone) subgroup in first-seen order joined with `" & "` (this inner level
is first-seen, as claimed). -/
theorem c3_amended (df out : DataFrame)
    (hstr : ∀ r ∈ df.rows, ∀ col ∈ ["VENDEDOR", "CLIENTE", "PLATAFORMA",
      "TELEFONO", "PANTALLA"], ∃ s, r.cell col = Value.str s)
    (h : process_data df = .ok out) :
    ∀ r ∈ out.rows, ∃ (v c t : Value) (labels : List (Value × String)),
      r.lookup "VENDEDOR" = some v ∧
      r.lookup "CLIENTE" = some c ∧
      r.lookup "TELEFONO" = some t ∧
      r.lookup "SERVICIO" =
        some (Value.str (String.intercalate " ▪️ " (labels.map Prod.snd))) ∧
      (labels.map Prod.fst).Pairwise
        (fun a b => valueLe a b = true ∧ a ≠ b) ∧
      (∀ p : Value, p ∈ labels.map Prod.fst ↔
        ∃ r0 ∈ df.rows, rowKey key4cols r0 = [v, c, p, t]) ∧
      ∀ pl ∈ labels, pl.2 = "*" ++ Value.pyStr pl.1 ++ "*: _" ++
        String.intercalate " & "
          ((firstSeen ((df.rows.filter (fun r0 =>
              decide (rowKey key4cols r0 = [v, c, pl.1, t]))).map
              (fun r0 => r0.cell "PANTALLA"))).map Value.pyStr) ++ "_" := by
  have hform := process_data_ok h
  subst hform
  intro r hr
  rw [DataFrame.rows_mk] at hr
  rcases List.mem_map.1 hr with ⟨⟨k3, g3⟩, hkgS, rfl⟩
  have hkg3 : (k3, g3) ∈ groupPairs (rowKey key3cols) (aggMidRows df) :=
    (sortGroups_perm _).mem_iff.1 hkgS
  have hk3mem : (k3, g3).1 ∈
      (groupPairs (rowKey key3cols) (aggMidRows df)).map Prod.fst :=
    List.mem_map_of_mem Prod.fst hkg3
  rw [groupPairs_fst] at hk3mem
  rcases List.mem_map.1 (mem_firstSeen.1 hk3mem) with ⟨rmid, hrmid, hk3⟩
  rw [aggMidRows_eq] at hrmid
  rcases List.mem_map.1 hrmid with ⟨kgm, hkgm, rfl⟩
  rcases S1_mem_char df hstr hkgm with ⟨sv, sc, sp0, st, -, hkey3m, -, -, -⟩
  have hk3b : rowKey key3cols (midRowOf kgm) = k3 := hk3
  have hk3v : k3 = [Value.str sv, Value.str sc, Value.str st] := by
    rw [← hk3b, hkey3m]
  subst hk3v
  have hval : g3 = (aggMidRows df).filter
      (fun row => decide (rowKey key3cols row =
        [Value.str sv, Value.str sc, Value.str st])) :=
    groupPairs_val _ _ _ hkg3
  have hg3 : g3 = ((sortGroups (groupPairs (rowKey key4cols) df.rows)).filter
      (fun kg => decide (rowKey key3cols (midRowOf kg) =
        [Value.str sv, Value.str sc, Value.str st]))).map midRowOf := by
    rw [hval, aggMidRows_eq, filter_of_map]
  refine ⟨Value.str sv, Value.str sc, Value.str st,
    ((sortGroups (groupPairs (rowKey key4cols) df.rows)).filter
      (fun kg => decide (rowKey key3cols (midRowOf kg) =
        [Value.str sv, Value.str sc, Value.str st]))).map
      (fun kg => ((midRowOf kg).cell "PLATAFORMA",
        Value.pyStr ((midRowOf kg).cell "SERVICIO"))),
    rfl, rfl, rfl, ?_, ?_, ?_, ?_⟩
  · -- the SERVICIO cell of the output row
    have hall : ∀ v ∈ g3.map (fun r => r.cell "SERVICIO"), v.isStr = true := by
      intro v hv
      rcases List.mem_map.1 hv with ⟨row, hrow, rfl⟩
      rw [hg3] at hrow
      rcases List.mem_map.1 hrow with ⟨kg, hkg, rfl⟩
      show ((midRowOf kg).cell "SERVICIO").isStr = true
      rcases S1f_mem_char df hstr sv sc st hkg with ⟨ap, -, -, hservE, -⟩
      rw [hservE]
      rfl
    have hlhs : (aggRow2 ([Value.str sv, Value.str sc, Value.str st],
        g3)).lookup "SERVICIO" =
        some (joinStrVals " ▪️ " (g3.map (fun r => r.cell "SERVICIO"))) := rfl
    rw [hlhs, joinStrVals_str _ _ hall, hg3]
    simp only [List.map_map]
    rfl
  · -- platforms strictly ascending
    rw [List.map_map]
    refine List.pairwise_map.2 ?_
    have hS1P : (sortGroups (groupPairs (rowKey key4cols) df.rows)).Pairwise
        (fun a b => keyLe a.1 b.1 = true ∧ a.1 ≠ b.1) := by
      have hp1 := sortGroups_pairwise (groupPairs (rowKey key4cols) df.rows)
      have hnd : ((sortGroups (groupPairs (rowKey key4cols) df.rows)).map
          Prod.fst).Nodup :=
        ((sortGroups_perm (groupPairs (rowKey key4cols) df.rows)).map
          Prod.fst).nodup_iff.mpr (groupPairs_nodup_fst _ _)
      have hnd2 : (sortGroups (groupPairs (rowKey key4cols) df.rows)).Pairwise
          (fun a b => a.1 ≠ b.1) :=
        List.pairwise_map.1 hnd
      exact hp1.and hnd2
    refine List.Pairwise.imp_of_mem ?_
      (List.Pairwise.sublist (List.filter_sublist _) hS1P)
    intro a b ha hb hab
    rcases S1f_mem_char df hstr sv sc st ha with ⟨ap, ha1, haplat, -, -⟩
    rcases S1f_mem_char df hstr sv sc st hb with ⟨bp, hb1, hbplat, -, -⟩
    obtain ⟨hle, hne⟩ := hab
    rw [ha1, hb1] at hle hne
    have hpne : ap ≠ bp := by
      intro hcontra
      apply hne
      rw [hcontra]
    constructor
    · show valueLe ((midRowOf a).cell "PLATAFORMA")
        ((midRowOf b).cell "PLATAFORMA") = true
      rw [haplat, hbplat]
      exact keyLe_proj3 _ _ _ _ _ (fun hc => hpne (Value.str.inj hc)) hle
    · show (midRowOf a).cell "PLATAFORMA" ≠ (midRowOf b).cell "PLATAFORMA"
      rw [haplat, hbplat]
      intro hc
      exact hpne (Value.str.inj hc)
  · -- the platforms listed are exactly the group's platforms
    intro p
    rw [List.map_map]
    constructor
    · intro hp
      rcases List.mem_map.1 hp with ⟨kg, hkg, hpe⟩
      have hpe2 : (midRowOf kg).cell "PLATAFORMA" = p := hpe
      rcases S1f_mem_char df hstr sv sc st hkg with ⟨ap, -, haplat, -, hex⟩
      rw [haplat] at hpe2
      rcases hex with ⟨r0, hr0, hk4⟩
      refine ⟨r0, hr0, ?_⟩
      rw [hk4, ← hpe2]
    · rintro ⟨r0, hr0, hk4⟩
      have hcov := groupPairs_covers (rowKey key4cols) df.rows r0 hr0
      rcases List.mem_map.1 hcov with ⟨kg, hkgGP, hkgfst⟩
      have hkgS1 : kg ∈ sortGroups (groupPairs (rowKey key4cols) df.rows) :=
        (sortGroups_perm _).mem_iff.2 hkgGP
      have hk1 : kg.1 = [Value.str sv, Value.str sc, p, Value.str st] :=
        hkgfst.trans hk4
      have hkgpair : kg = ([Value.str sv, Value.str sc, p, Value.str st], kg.2) := by
        rw [← hk1]
      have hcond : rowKey key3cols (midRowOf kg) =
          [Value.str sv, Value.str sc, Value.str st] := by
        rw [hkgpair]
        exact midRow_key3 _ _ _ _ _
      refine List.mem_map.2 ⟨kg, List.mem_filter.2 ⟨hkgS1, decide_eq_true hcond⟩, ?_⟩
      show (midRowOf kg).cell "PLATAFORMA" = p
      rw [hkgpair]
      exact midRow_plat _ _ _ _ _
  · -- each label is the first-seen screens of its platform group
    intro pl hpl
    rcases List.mem_map.1 hpl with ⟨kg, hkg, heq⟩
    have h1 : pl.1 = (midRowOf kg).cell "PLATAFORMA" := by rw [← heq]
    have h2 : pl.2 = Value.pyStr ((midRowOf kg).cell "SERVICIO") := by rw [← heq]
    rcases S1f_mem_char df hstr sv sc st hkg with ⟨ap, -, haplat, hservE, -⟩
    rw [h2, h1, hservE, haplat]
    rfl

theorem c3df_str : ∀ r ∈ c3df.rows, ∀ col ∈ ["VENDEDOR", "CLIENTE",
    "PLATAFORMA", "TELEFONO", "PANTALLA"], (r.cell col).isStr = true := by
  decide

/-- C3 witness: the amended ordering property instantiated on the output
row of the concrete two-platform run. -/
theorem c3_amended_witness :
    ∃ (v c t : Value) (labels : List (Value × String)),
      c3outRow.lookup "VENDEDOR" = some v ∧
      c3outRow.lookup "CLIENTE" = some c ∧
      c3outRow.lookup "TELEFONO" = some t ∧
      c3outRow.lookup "SERVICIO" =
        some (Value.str (String.intercalate " ▪️ " (labels.map Prod.snd))) ∧
      (labels.map Prod.fst).Pairwise
        (fun a b => valueLe a b = true ∧ a ≠ b) ∧
      (∀ p : Value, p ∈ labels.map Prod.fst ↔
        ∃ r0 ∈ c3df.rows, rowKey key4cols r0 = [v, c, p, t]) ∧
      ∀ pl ∈ labels, pl.2 = "*" ++ Value.pyStr pl.1 ++ "*: _" ++
        String.intercalate " & "
          ((firstSeen ((c3df.rows.filter (fun r0 =>
              decide (rowKey key4cols r0 = [v, c, pl.1, t]))).map
              (fun r0 => r0.cell "PANTALLA"))).map Value.pyStr) ++ "_" :=
  c3_amended c3df ⟨["VENDEDOR", "CLIENTE", "TELEFONO", "SERVICIO"], [c3outRow]⟩
    (fun r hr col hcol => isStr_exists (c3df_str r hr col hcol))
    (by decide) c3outRow (List.mem_cons_self _ _)

end Wsp
